import Mathlib

/-!
# jack-utils: the microphone connection guard

A shallow embedding of `src/fucking-microphone.c`.

* The global `id_pipe` is passed explicitly as a `disconnect_pipe` value.
* A POSIX counting semaphore is a natural number of at most `SEM_VALUE_MAX`;
  `sem_wait` on a zero count in a one-at-a-time execution never returns and
  is reported as `Fault.blocked`; `sem_post` on a count of `SEM_VALUE_MAX`
  fails and leaves the count, and the program ignores its result.
* `buffer` is declared with 256 cells.  An access outside `0 .. 255` is
  undefined behaviour in C and is reported as `Fault.out_of_bounds`.
* `strcmp` on a null pointer is undefined behaviour and is reported as
  `Fault.null_deref`.
* Calls into the JACK library that change the graph are recorded as a list of
  `jack_call` values; the `printf` output is not modelled.
-/

set_option linter.unusedVariables false

namespace JackUtils

/-! ## Data model -/

/-- The C type `jack_port_id_t` is an unsigned 32 bit id; no arithmetic is done on it. -/
abbrev jack_port_id_t := Nat

/-- The array `static const char* mic_ports[]`. -/
def mic_ports : List String :=
  ["system:capture_1", "system:capture_2"]

/-- The array `static const char* acceptable_mic_connections[]`. -/
def acceptable_mic_connections : List String :=
  ["ardour:Mic/audio_in 1", "ardour:Mic/audio_in 2",
   "ardour:Mic loopback/audio_in 1", "ardour:Mic loopback/audio_in 2"]

/-- The C macro `ARRAY_SIZE(__what)`. -/
def ARRAY_SIZE {α : Type} (what : List α) : Nat := what.length

/-- Number of cells of `buffer` in `disconnect_pipe_t` (`buffer[256]`). -/
def BUFFER_CELLS : Int := 256

/-- Ways in which a run of the C code can fail to return normally. -/
inductive Fault where
  /-- A `sem_wait` on a count of zero, nobody else running to post it. -/
  | blocked
  /-- An access to `buffer[index]` with `index` outside `0 .. 255`. -/
  | out_of_bounds (index : Int)
  /-- A call of `strcmp` with a null pointer. -/
  | null_deref
  /-- The loop model was given too few iterations. -/
  | out_of_fuel
  deriving DecidableEq, Repr

/-- The C type `struct disconnect_pipe_t`: the cells of `buffer` are addressed by the
(signed) C index, the two `sem_t` fields by their counts. -/
structure disconnect_pipe where
  buffer : Int → jack_port_id_t
  buffer_watermark : Int
  read_semaphore : Nat
  write_semaphore : Nat

/-- POSIX `sem_trywait`: decrements a positive count, fails (`none`) on zero. -/
def sem_trywait (sem : Nat) : Option Nat :=
  if sem = 0 then none else some (sem - 1)

/-- POSIX `sem_wait`: decrements a positive count, blocks on zero. -/
def sem_wait (sem : Nat) : Except Fault Nat :=
  if sem = 0 then .error .blocked else .ok (sem - 1)

/-- The largest count of a semaphore (`SEM_VALUE_MAX` of glibc, 2^31 - 1). -/
def SEM_VALUE_MAX : Nat := 2147483647

/-- POSIX `sem_post`: increments a count below `SEM_VALUE_MAX`; on a count of
`SEM_VALUE_MAX` it fails with `EOVERFLOW` and leaves the count.  The program
never looks at the result, so only the count is returned. -/
def sem_post (sem : Nat) : Nat :=
  if sem < SEM_VALUE_MAX then sem + 1 else sem

/-- C function `int has_elements(disconnect_pipe *pipe)`: the returned flag and the pipe
after the call. -/
def has_elements (pipe : disconnect_pipe) : Bool × disconnect_pipe :=
  match sem_trywait pipe.read_semaphore with
  | some s => (true, { pipe with read_semaphore := s })
  | none => (false, pipe)

/-- C function `jack_port_id_t unqueue_element(disconnect_pipe *pipe)`:
`value = pipe->buffer[--pipe->buffer_watermark]`, then
`sem_post(&pipe->write_semaphore)`. -/
def unqueue_element (pipe : disconnect_pipe) :
    Except Fault (jack_port_id_t × disconnect_pipe) :=
  let watermark := pipe.buffer_watermark - 1
  if 0 ≤ watermark ∧ watermark < BUFFER_CELLS then
    .ok (pipe.buffer watermark,
      { pipe with
        buffer_watermark := watermark
        write_semaphore := sem_post pipe.write_semaphore })
  else .error (.out_of_bounds watermark)

/-- C function `void queue_element(disconnect_pipe *pipe, jack_port_id_t id)`:
`sem_wait(&pipe->write_semaphore)`, then
`pipe->buffer[pipe->buffer_watermark++] = id`, then `sem_post` on the read
and on the write semaphore. -/
def queue_element (pipe : disconnect_pipe) (id : jack_port_id_t) :
    Except Fault disconnect_pipe :=
  match sem_wait pipe.write_semaphore with
  | .error e => .error e
  | .ok w =>
    let index := pipe.buffer_watermark
    if 0 ≤ index ∧ index < BUFFER_CELLS then
      .ok { buffer := Function.update pipe.buffer index id
            buffer_watermark := index + 1
            read_semaphore := sem_post pipe.read_semaphore
            write_semaphore := sem_post w }
    else .error (.out_of_bounds index)

/-! ## The JACK client as seen by the program -/

/-- A port of the graph: what a non-null `jack_port_t*` stands for. -/
structure jack_port_t where
  id : jack_port_id_t
  name : String
  deriving DecidableEq, Repr

/-- The graph behind `jack_client_t *client`: the registered ports and the
set of (source name, destination name) connections. -/
structure jack_client_t where
  ports : List jack_port_t
  connections : Finset (String × String)

/-- Modelled from the spec: `jack_port_by_id(client, id)` of the JACK library
(`lookupPortById`), whose source is not part of the repository: the port, or `none` for the null pointer. -/
def jack_port_by_id (client : jack_client_t) (id : jack_port_id_t) :
    Option jack_port_t :=
  client.ports.find? (fun p => decide (p.id = id))

/-- Modelled from the spec: `jack_port_by_name(client, name)` of the JACK
library (`lookupPortByName`), whose source is not part of the repository: the port, or `none` for the null
pointer. -/
def jack_port_by_name (client : jack_client_t) (name : String) :
    Option jack_port_t :=
  client.ports.find? (fun p => decide (p.name = name))

/-- Modelled from the spec: `jack_port_name(port)` of the JACK library
(`portName`), whose source is not part of the repository: no name is available for a null port. -/
def jack_port_name (port : Option jack_port_t) : Option String :=
  port.map (fun p => p.name)

/-- The libc `strcmp(a, b)`: zero exactly for equal strings, otherwise the sign of the
lexicographic comparison; a null argument is a fault. -/
def strcmp (a b : Option String) : Except Fault Int :=
  match a, b with
  | some x, some y => .ok (if x = y then 0 else if x < y then -1 else 1)
  | _, _ => .error .null_deref

/-- The first `Foreach` of `on_port_connect`: computes `is_mic`. -/
def is_mic_loop (port_a_name : Option String) : List String → Except Fault Bool
  | [] => .ok false
  | mic :: rest =>
    match strcmp port_a_name (some mic) with
    | .error e => .error e
    | .ok cmp => if cmp = 0 then .ok true else is_mic_loop port_a_name rest

/-- The second `Foreach` of `on_port_connect`: computes `should_disconnect`. -/
def should_disconnect_loop (port_b_name : Option String) :
    List String → Except Fault Bool
  | [] => .ok true
  | cur :: rest =>
    match strcmp (some cur) port_b_name with
    | .error e => .error e
    | .ok cmp =>
      if cmp = 0 then .ok false else should_disconnect_loop port_b_name rest

/-- C function `void on_port_connect(jack_port_id_t id_a, jack_port_id_t id_b,
int is_connected, void *arg)`, returning the pipe `id_pipe` after the call.
The unused `arg` is left out. -/
def on_port_connect (client : jack_client_t) (id_pipe : disconnect_pipe)
    (id_a id_b : jack_port_id_t) (is_connected : Int) :
    Except Fault disconnect_pipe :=
  let port_a := jack_port_by_id client id_a
  let port_b := jack_port_by_id client id_b
  let port_a_name := jack_port_name port_a
  match is_mic_loop port_a_name mic_ports with
  | .error e => .error e
  | .ok false => .ok id_pipe
  | .ok true =>
    let port_b_name := jack_port_name port_b
    match should_disconnect_loop port_b_name acceptable_mic_connections with
    | .error e => .error e
    | .ok true => queue_element id_pipe id_a
    | .ok false => .ok id_pipe

/-! ## Calls issued to the JACK library -/

/-- A call of the program that acts on the graph. -/
inductive jack_call where
  /-- The call `jack_connect(client, a, b)`. -/
  | connect (a b : String)
  /-- The call `jack_port_disconnect(client, port)`; `none` is the null pointer. -/
  | port_disconnect (port : Option jack_port_t)
  deriving DecidableEq, Repr

/-- The body of `try_reconnect_mic` over arbitrary arrays: for every `index`
of the destinations, `jack_connect(client, mics[index % ARRAY_SIZE(mics)],
dests[index])`.  The default of `getD` is never taken when `mics` is not
empty. -/
def try_reconnect_mic_on (mics dests : List String) : List jack_call :=
  (List.range (ARRAY_SIZE dests)).map fun index =>
    let mic_port_index := index % ARRAY_SIZE mics
    let a := mics.getD mic_port_index ""
    let b := dests.getD index ""
    jack_call.connect a b

/-- C function `void try_reconnect_mic()`. -/
def try_reconnect_mic : List jack_call :=
  try_reconnect_mic_on mic_ports acceptable_mic_connections

/-- C function `void disconnect_all_port_connections(const char *port_name)`. -/
def disconnect_all_port_connections (client : jack_client_t)
    (port_name : String) : List jack_call :=
  match jack_port_by_name client port_name with
  | none => []
  | some port => [jack_call.port_disconnect (some port)]

/-- C function `void init_semaphore(sem_t *sem, int val)`: the count that
`sem_init(sem, 0, val)` gives the semaphore.  The branch that exits the
process when `sem_init` fails is not modelled. -/
def init_semaphore (val : Nat) : Nat := val

/-- The pipe as `main` sets it up: `id_pipe` is a zeroed global,
`buffer_watermark = 0`, `init_semaphore(read, 0)`, `init_semaphore(write, 1)`. -/
def main_init_pipe : disconnect_pipe :=
  { buffer := fun _ => 0
    buffer_watermark := 0
    read_semaphore := init_semaphore 0
    write_semaphore := init_semaphore 1 }

/-- The startup block of `main`: `disconnect_all_port_connections` for every
entry of `mic_ports`, then `try_reconnect_mic`. -/
def main_startup (client : jack_client_t) : List jack_call :=
  (mic_ports.map (disconnect_all_port_connections client)).flatten
    ++ try_reconnect_mic

/-- The consumer step of the control loop: `has_elements`, and
`unqueue_element` exactly when it returned true. -/
def tryDequeue (pipe : disconnect_pipe) :
    Except Fault (Option jack_port_id_t × disconnect_pipe) :=
  match has_elements pipe with
  | (false, pipe1) => .ok (none, pipe1)
  | (true, pipe1) =>
    match unqueue_element pipe1 with
    | .error e => .error e
    | .ok (value, pipe2) => .ok (some value, pipe2)

/-- The inner `while(has_elements(&id_pipe))` of `main`, run for at most
`fuel` evaluations of its condition: the pipe after the loop and the calls
issued. -/
def drain_loop (client : jack_client_t) :
    Nat → disconnect_pipe → Except Fault (disconnect_pipe × List jack_call)
  | 0, _ => .error .out_of_fuel
  | fuel + 1, pipe =>
    match tryDequeue pipe with
    | .error e => .error e
    | .ok (none, pipe1) => .ok (pipe1, [])
    | .ok (some id, pipe1) =>
      let calls :=
        jack_call.port_disconnect (jack_port_by_id client id) :: try_reconnect_mic
      match drain_loop client fuel pipe1 with
      | .error e => .error e
      | .ok (pipe2, rest) => .ok (pipe2, calls ++ rest)

/-- One drain pass: every iteration takes one unit from the read semaphore,
so `read_semaphore + 1` evaluations of the condition are enough. -/
def drain_pass (client : jack_client_t) (pipe : disconnect_pipe) :
    Except Fault (disconnect_pipe × List jack_call) :=
  drain_loop client (pipe.read_semaphore + 1) pipe

/-! ## One-at-a-time executions of the pipe -/

/-- The two operations on the pipe. -/
inductive pipe_op where
  | enqueue (id : jack_port_id_t)
  | dequeue
  deriving DecidableEq, Repr

/-- Runs the operations in order from `pipe`; returns the final pipe and the
values returned by the successful dequeues, in order. -/
def run_ops : disconnect_pipe → List pipe_op →
    Except Fault (disconnect_pipe × List jack_port_id_t)
  | pipe, [] => .ok (pipe, [])
  | pipe, pipe_op.enqueue id :: ops =>
    match queue_element pipe id with
    | .error e => .error e
    | .ok pipe1 => run_ops pipe1 ops
  | pipe, pipe_op.dequeue :: ops =>
    match tryDequeue pipe with
    | .error e => .error e
    | .ok (none, pipe1) => run_ops pipe1 ops
    | .ok (some v, pipe1) =>
      match run_ops pipe1 ops with
      | .error e => .error e
      | .ok (pipe2, out) => .ok (pipe2, v :: out)

/-- The pipe states that one-at-a-time executions reach from `main`s initial
state before any store outside the buffer: a step is taken only where the
operation returns in the model.  What the program is in after it has stored
to `buffer[256]` is undefined in C and is not a member of this set. -/
inductive Reachable : disconnect_pipe → Prop where
  | init : Reachable main_init_pipe
  | enqueue {pipe pipe1 : disconnect_pipe} (id : jack_port_id_t) :
      Reachable pipe → queue_element pipe id = .ok pipe1 → Reachable pipe1
  | dequeue {pipe pipe1 : disconnect_pipe} (v : Option jack_port_id_t) :
      Reachable pipe → tryDequeue pipe = .ok (v, pipe1) → Reachable pipe1

/-- The values stored below `buffer_watermark`, bottom first. -/
def stored (pipe : disconnect_pipe) : List jack_port_id_t :=
  (List.range pipe.buffer_watermark.toNat).map
    (fun (i : Nat) => pipe.buffer (Int.ofNat i))

/-! ## The effect of the calls on the graph -/

/-- Modelled from the spec: `jack_connect` of the JACK library, whose source
is not part of the repository.  A successful connect inserts its pair into
the set of connections (connecting a connected pair changes nothing); the
connect fails, and changes nothing, when one of the two names is not a
registered port. -/
def jack_connect (client : jack_client_t) (a b : String) : jack_client_t :=
  if (jack_port_by_name client a).isSome ∧ (jack_port_by_name client b).isSome then
    { client with connections := insert (a, b) client.connections }
  else client

/-- Modelled from the spec: `jack_port_disconnect` of the JACK library
(`disconnectAll(client, portHandle)`), whose source is not part of the
repository.  It removes every connection that has the port as source or as
destination; on the null pointer it changes nothing. -/
def jack_port_disconnect (client : jack_client_t) (port : Option jack_port_t) :
    jack_client_t :=
  match port with
  | none => client
  | some p =>
    { client with
      connections :=
        client.connections.filter (fun c => c.1 ≠ p.name ∧ c.2 ≠ p.name) }

/-- The graph after one call. -/
def apply_call (client : jack_client_t) : jack_call → jack_client_t
  | jack_call.connect a b => jack_connect client a b
  | jack_call.port_disconnect port => jack_port_disconnect client port

/-- The graph after a list of calls, first call first. -/
def apply_calls (client : jack_client_t) (calls : List jack_call) :
    jack_client_t :=
  calls.foldl apply_call client

/-- The ids enqueued by a list of operations, in order. -/
def enqueued : List pipe_op → List jack_port_id_t
  | [] => []
  | pipe_op.enqueue id :: ops => id :: enqueued ops
  | pipe_op.dequeue :: ops => enqueued ops

/-- Starting with `held` items, the operations never bring the number of
held items above `cap` (a dequeue on zero items takes nothing). -/
def holds_at_most (cap : Nat) : Nat → List pipe_op → Bool
  | _, [] => true
  | held, pipe_op.enqueue _ :: ops =>
    decide (held + 1 ≤ cap) && holds_at_most cap (held + 1) ops
  | held, pipe_op.dequeue :: ops => holds_at_most cap (held - 1) ops

/-- The facts that hold between any two operations of a one-at-a-time
execution. -/
structure pipe_inv (pipe : disconnect_pipe) : Prop where
  nonneg : 0 ≤ pipe.buffer_watermark
  bounded : pipe.buffer_watermark ≤ 256
  read_eq : (pipe.read_semaphore : Int) = pipe.buffer_watermark
  write_pos : 1 ≤ pipe.write_semaphore
  write_le : pipe.write_semaphore ≤ SEM_VALUE_MAX

/-- The specification's reading of the hand-off buffer, as a stack: an
enqueue puts its id on top, a dequeue takes the id on top (the most recently
enqueued id not yet dequeued) and takes nothing from the empty stack.
Returns the ids taken, in order, and the final stack, top first. -/
def lifo_reference : List jack_port_id_t → List pipe_op →
    List jack_port_id_t × List jack_port_id_t
  | stack, [] => ([], stack)
  | stack, pipe_op.enqueue id :: ops => lifo_reference (id :: stack) ops
  | stack, pipe_op.dequeue :: ops =>
    match stack with
    | [] => lifo_reference [] ops
    | top :: below =>
      let r := lifo_reference below ops
      (top :: r.1, r.2)

/-! ## Sample inputs -/

/-- A graph of a machine with a single capture port: `system:capture_2` does
not exist. -/
def mono_client : jack_client_t :=
  { ports := [⟨1, "system:capture_1"⟩, ⟨3, "ardour:Mic/audio_in 1"⟩]
    connections := ∅ }

/-- The pipe after `queue_element(&id_pipe, 9)` on the initial pipe; no port
of `sample_client` has the id 9. -/
def stale_pipe : disconnect_pipe :=
  { buffer := Function.update main_init_pipe.buffer 0 9
    buffer_watermark := 1
    read_semaphore := 1
    write_semaphore := 1 }

/-- A graph with the two microphone ports, one approved destination and one
foreign port `X`, and no connection. -/
def sample_client : jack_client_t :=
  { ports := [⟨1, "system:capture_1"⟩, ⟨2, "system:capture_2"⟩,
              ⟨3, "ardour:Mic/audio_in 1"⟩, ⟨4, "X"⟩]
    connections := ∅ }

/-- A graph with every port the program names and a foreign port `X`, in
which the first microphone port is connected to `X`. -/
def full_client : jack_client_t :=
  { ports := [⟨1, "system:capture_1"⟩, ⟨2, "system:capture_2"⟩,
              ⟨3, "ardour:Mic/audio_in 1"⟩, ⟨4, "ardour:Mic/audio_in 2"⟩,
              ⟨5, "ardour:Mic loopback/audio_in 1"⟩,
              ⟨6, "ardour:Mic loopback/audio_in 2"⟩, ⟨7, "X"⟩]
    connections := {("system:capture_1", "X")} }

/-- The pipe after `queue_element(&id_pipe, 1)` on the initial pipe. -/
def one_item_pipe : disconnect_pipe :=
  { buffer := Function.update main_init_pipe.buffer 0 1
    buffer_watermark := 1
    read_semaphore := 1
    write_semaphore := 1 }

/-- The pipe holding the single id 0 after so many dequeues that the write
semaphore has reached `SEM_VALUE_MAX`. -/
def saturated_pipe : disconnect_pipe :=
  { buffer := fun _ => 0
    buffer_watermark := 1
    read_semaphore := 1
    write_semaphore := SEM_VALUE_MAX }

/-- An empty pipe whose write semaphore has no unit left. -/
def starved_pipe : disconnect_pipe :=
  { main_init_pipe with write_semaphore := 0 }

end JackUtils

namespace JackUtils

/-! ## The filter of `on_port_connect` -/

theorem strcmp_some (x y : String) :
    strcmp (some x) (some y) = .ok (if x = y then 0 else if x < y then -1 else 1) :=
  rfl

theorem strcmp_cmp_eq_zero (x y : String) :
    ((if x = y then (0 : Int) else if x < y then -1 else 1) = 0) ↔ x = y := by
  by_cases h : x = y
  · simp [h]
  · by_cases h2 : x < y <;> simp [h, h2]

theorem is_mic_loop_some (name : String) (mics : List String) :
    is_mic_loop (some name) mics = .ok (decide (name ∈ mics)) := by
  induction mics with
  | nil => simp [is_mic_loop]
  | cons mic rest ih =>
    simp only [is_mic_loop, strcmp_some, strcmp_cmp_eq_zero]
    by_cases h : name = mic
    · simp [h]
    · simp [h, ih]

theorem should_disconnect_loop_some (name : String) (dests : List String) :
    should_disconnect_loop (some name) dests = .ok (decide (name ∉ dests)) := by
  induction dests with
  | nil => simp [should_disconnect_loop]
  | cons cur rest ih =>
    simp only [should_disconnect_loop, strcmp_some, strcmp_cmp_eq_zero]
    by_cases h : cur = name
    · simp [h]
    · have h2 : ¬ name = cur := fun e => h e.symm
      simp [h, h2, ih]

theorem sem_post_lt (sem : Nat) (h : sem < SEM_VALUE_MAX) :
    sem_post sem = sem + 1 := by
  simp [sem_post, h]

theorem sem_post_max : sem_post SEM_VALUE_MAX = SEM_VALUE_MAX := by
  simp [sem_post]

theorem sem_post_le (sem : Nat) (h : sem ≤ SEM_VALUE_MAX) :
    sem_post sem ≤ SEM_VALUE_MAX := by
  unfold sem_post
  split <;> omega

theorem sem_post_pos (sem : Nat) (h : 1 ≤ sem) : 1 ≤ sem_post sem := by
  unfold sem_post
  split <;> omega

theorem queue_element_ok (pipe : disconnect_pipe) (id : jack_port_id_t)
    (hi : pipe_inv pipe) (h1 : pipe.buffer_watermark < 256) :
    queue_element pipe id = .ok
      { buffer := Function.update pipe.buffer pipe.buffer_watermark id
        buffer_watermark := pipe.buffer_watermark + 1
        read_semaphore := pipe.read_semaphore + 1
        write_semaphore := pipe.write_semaphore } := by
  obtain ⟨h0, _, hr, hw, hwl⟩ := hi
  have hne : pipe.write_semaphore ≠ 0 := by omega
  have hs : sem_post (pipe.write_semaphore - 1) = pipe.write_semaphore := by
    rw [sem_post_lt _ (by omega)]
    omega
  have hrs : sem_post pipe.read_semaphore = pipe.read_semaphore + 1 :=
    sem_post_lt _ (by unfold SEM_VALUE_MAX; omega)
  simp [queue_element, sem_wait, BUFFER_CELLS, hne, h0, h1, hs, hrs]

theorem on_port_connect_unapproved (client : jack_client_t)
    (pipe : disconnect_pipe) (id_a id_b : jack_port_id_t) (is_connected : Int)
    (name_a name_b : String)
    (ha : jack_port_name (jack_port_by_id client id_a) = some name_a)
    (hb : jack_port_name (jack_port_by_id client id_b) = some name_b)
    (hmic : name_a ∈ mic_ports)
    (hbad : name_b ∉ acceptable_mic_connections) :
    on_port_connect client pipe id_a id_b is_connected =
      queue_element pipe id_a := by
  simp only [on_port_connect, ha, hb, is_mic_loop_some,
    should_disconnect_loop_some, hmic, hbad, not_false_eq_true, decide_True]

/-- C2: when the source id resolves to a name that is not in `mic_ports`,
`on_port_connect` returns the pipe exactly as it was, for every pipe, every
destination id and every value of the flag. -/
theorem C2_non_mic_source_no_enqueue (client : jack_client_t)
    (pipe : disconnect_pipe) (id_a id_b : jack_port_id_t) (is_connected : Int)
    (name_a : String)
    (ha : jack_port_name (jack_port_by_id client id_a) = some name_a)
    (hmic : name_a ∉ mic_ports) :
    on_port_connect client pipe id_a id_b is_connected = .ok pipe := by
  simp [on_port_connect, ha, is_mic_loop_some, hmic]

/-- Witness for C2: the foreign port `X` as source, an unknown destination. -/
theorem C2_non_mic_source_no_enqueue_witness :
    on_port_connect sample_client main_init_pipe 4 99 1 = .ok main_init_pipe :=
  C2_non_mic_source_no_enqueue sample_client main_init_pipe 4 99 1 "X"
    (by decide) (by decide)

/-- C3: when the source name is in `mic_ports` and the destination name is an
entry of `acceptable_mic_connections`, `on_port_connect` returns the pipe
exactly as it was, for every pipe. -/
theorem C3_approved_destination_no_enqueue (client : jack_client_t)
    (pipe : disconnect_pipe) (id_a id_b : jack_port_id_t) (is_connected : Int)
    (name_a name_b : String)
    (ha : jack_port_name (jack_port_by_id client id_a) = some name_a)
    (hb : jack_port_name (jack_port_by_id client id_b) = some name_b)
    (hmic : name_a ∈ mic_ports)
    (hgood : name_b ∈ acceptable_mic_connections) :
    on_port_connect client pipe id_a id_b is_connected = .ok pipe := by
  simp [on_port_connect, ha, hb, is_mic_loop_some, should_disconnect_loop_some,
    hmic, hgood]

/-- Witness for C3: capture_1 connected to the first approved destination. -/
theorem C3_approved_destination_no_enqueue_witness :
    on_port_connect sample_client starved_pipe 1 3 0 = .ok starved_pipe :=
  C3_approved_destination_no_enqueue sample_client starved_pipe 1 3 0
    "system:capture_1" "ardour:Mic/audio_in 1"
    (by decide) (by decide) (by decide) (by decide)

/-! ## The reconnect policy -/

/-- C4: for every non-empty list of monitored ports and every list of
destinations, `try_reconnect_mic` issues one connect per destination, in
index order, the one at index `i` being
`connect(mics[i mod |mics|], dests[i])`; the function of the program is
this loop over `mic_ports` and `acceptable_mic_connections`; and for
`[P1, P2]` and `[D1, D2, D3, D4]` the calls are (P1,D1), (P2,D2), (P1,D3),
(P2,D4). -/
theorem C4_round_robin (mics dests : List String) (hM : mics ≠ []) :
    (try_reconnect_mic_on mics dests).length = dests.length ∧
    (∀ (i : Nat) (hi : i < dests.length),
      (try_reconnect_mic_on mics dests)[i]? =
        some (jack_call.connect
          (mics.get ⟨i % mics.length, Nat.mod_lt i (List.length_pos.mpr hM)⟩)
          (dests.get ⟨i, hi⟩))) ∧
    try_reconnect_mic = try_reconnect_mic_on mic_ports acceptable_mic_connections ∧
    (∀ P1 P2 D1 D2 D3 D4 : String,
      try_reconnect_mic_on [P1, P2] [D1, D2, D3, D4] =
        [jack_call.connect P1 D1, jack_call.connect P2 D2,
         jack_call.connect P1 D3, jack_call.connect P2 D4]) := by
  refine ⟨by simp [try_reconnect_mic_on, ARRAY_SIZE], ?_, rfl, ?_⟩
  · intro i hi
    have hm : i % mics.length < mics.length :=
      Nat.mod_lt i (List.length_pos.mpr hM)
    simp [try_reconnect_mic_on, ARRAY_SIZE, List.getElem?_range hi,
      List.getElem?_eq_getElem hm, List.getElem?_eq_getElem hi]
  · intro P1 P2 D1 D2 D3 D4
    simp [try_reconnect_mic_on, ARRAY_SIZE, List.range, List.range.loop]

theorem try_reconnect_mic_calls :
    try_reconnect_mic =
      [jack_call.connect "system:capture_1" "ardour:Mic/audio_in 1",
       jack_call.connect "system:capture_2" "ardour:Mic/audio_in 2",
       jack_call.connect "system:capture_1" "ardour:Mic loopback/audio_in 1",
       jack_call.connect "system:capture_2" "ardour:Mic loopback/audio_in 2"] := by
  simp [try_reconnect_mic, try_reconnect_mic_on, ARRAY_SIZE, List.range,
    List.range.loop, mic_ports, acceptable_mic_connections]

/-- Witness for C4: the arrays of the program. -/
theorem C4_round_robin_witness :
    mic_ports ≠ [] ∧
    try_reconnect_mic =
      [jack_call.connect "system:capture_1" "ardour:Mic/audio_in 1",
       jack_call.connect "system:capture_2" "ardour:Mic/audio_in 2",
       jack_call.connect "system:capture_1" "ardour:Mic loopback/audio_in 1",
       jack_call.connect "system:capture_2" "ardour:Mic loopback/audio_in 2"] :=
  ⟨by decide,
   ((C4_round_robin mic_ports acceptable_mic_connections (by decide)).2.2.1).trans
     ((C4_round_robin mic_ports acceptable_mic_connections (by decide)).2.2.2
       _ _ _ _ _ _)⟩


/-! ## The pipe -/

theorem tryDequeue_empty (pipe : disconnect_pipe) (h : pipe.read_semaphore = 0) :
    tryDequeue pipe = .ok (none, pipe) := by
  simp [tryDequeue, has_elements, sem_trywait, h]

theorem tryDequeue_item (pipe : disconnect_pipe) (hr : 1 ≤ pipe.read_semaphore)
    (h0 : 1 ≤ pipe.buffer_watermark) (h1 : pipe.buffer_watermark ≤ 256) :
    tryDequeue pipe = .ok (some (pipe.buffer (pipe.buffer_watermark - 1)),
      { buffer := pipe.buffer
        buffer_watermark := pipe.buffer_watermark - 1
        read_semaphore := pipe.read_semaphore - 1
        write_semaphore := sem_post pipe.write_semaphore }) := by
  have hne : pipe.read_semaphore ≠ 0 := by omega
  have ha : 0 ≤ pipe.buffer_watermark - 1 := by omega
  have hb : pipe.buffer_watermark - 1 < 256 := by omega
  simp [tryDequeue, has_elements, sem_trywait, unqueue_element,
    BUFFER_CELLS, hne, ha, hb]

theorem pipe_inv_init : pipe_inv main_init_pipe :=
  ⟨by decide, by decide, by decide, by decide, by decide⟩

theorem pipe_inv_queue {pipe pipe1 : disconnect_pipe} {id : jack_port_id_t}
    (hi : pipe_inv pipe) (h : queue_element pipe id = .ok pipe1) :
    pipe_inv pipe1 := by
  have hok := queue_element_ok pipe id hi
  obtain ⟨h0, h1, hr, hw, hwl⟩ := hi
  by_cases hlt : pipe.buffer_watermark < 256
  · rw [hok hlt] at h
    cases h
    exact ⟨by simp; omega, by simp; omega, by simp; omega, hw, hwl⟩
  · have hne : pipe.write_semaphore ≠ 0 := by omega
    simp [queue_element, sem_wait, BUFFER_CELLS, hne, hlt] at h

theorem pipe_inv_dequeue {pipe pipe1 : disconnect_pipe}
    {v : Option jack_port_id_t}
    (hi : pipe_inv pipe) (h : tryDequeue pipe = .ok (v, pipe1)) :
    pipe_inv pipe1 := by
  obtain ⟨h0, h1, hr, hw, hwl⟩ := hi
  by_cases hz : pipe.read_semaphore = 0
  · rw [tryDequeue_empty pipe hz] at h
    cases h
    exact ⟨h0, h1, hr, hw, hwl⟩
  · rw [tryDequeue_item pipe (by omega) (by omega) h1] at h
    cases h
    exact ⟨by simp; omega, by simp; omega, by simp; omega,
      sem_post_pos _ hw, sem_post_le _ hwl⟩

theorem reachable_inv {pipe : disconnect_pipe} (h : Reachable pipe) :
    pipe_inv pipe := by
  induction h with
  | init => exact pipe_inv_init
  | enqueue id _ hq ih => exact pipe_inv_queue ih hq
  | dequeue v _ hd ih => exact pipe_inv_dequeue ih hd

/-- C1: for a connection event whose two ids resolve to ports, with a source
name in `mic_ports` and a destination name outside
`acceptable_mic_connections`, on every pipe state that an execution reaches
and that holds fewer than 256 items, `on_port_connect` returns and does
exactly one `queue_element`, with `id_a`: the watermark and the read
semaphore grow by one, the write semaphore is unchanged, the cell at the old
watermark holds `id_a` and no other cell changes. -/
theorem C1_unapproved_enqueues_source (client : jack_client_t)
    (pipe : disconnect_pipe) (id_a id_b : jack_port_id_t) (is_connected : Int)
    (name_a name_b : String)
    (ha : jack_port_name (jack_port_by_id client id_a) = some name_a)
    (hb : jack_port_name (jack_port_by_id client id_b) = some name_b)
    (hmic : name_a ∈ mic_ports)
    (hbad : name_b ∉ acceptable_mic_connections)
    (hreach : Reachable pipe) (h1 : pipe.buffer_watermark < 256) :
    ∃ pipe1 : disconnect_pipe,
      on_port_connect client pipe id_a id_b is_connected = .ok pipe1 ∧
      queue_element pipe id_a = .ok pipe1 ∧
      pipe1.buffer_watermark = pipe.buffer_watermark + 1 ∧
      pipe1.read_semaphore = pipe.read_semaphore + 1 ∧
      pipe1.write_semaphore = pipe.write_semaphore ∧
      pipe1.buffer pipe.buffer_watermark = id_a ∧
      ∀ j : Int, j ≠ pipe.buffer_watermark → pipe1.buffer j = pipe.buffer j := by
  have hq := queue_element_ok pipe id_a (reachable_inv hreach) h1
  refine ⟨_, ?_, hq, rfl, rfl, rfl, ?_, ?_⟩
  · rw [on_port_connect_unapproved client pipe id_a id_b is_connected
      name_a name_b ha hb hmic hbad]
    exact hq
  · simp
  · intro j hj
    simp [Function.update, hj]

/-- Witness for C1: the event (capture_1, X) on the initial pipe. -/
theorem C1_unapproved_enqueues_source_witness :
    ∃ pipe1 : disconnect_pipe,
      on_port_connect sample_client main_init_pipe 1 4 1 = .ok pipe1 ∧
      queue_element main_init_pipe 1 = .ok pipe1 ∧
      pipe1.buffer_watermark = main_init_pipe.buffer_watermark + 1 ∧
      pipe1.read_semaphore = main_init_pipe.read_semaphore + 1 ∧
      pipe1.write_semaphore = main_init_pipe.write_semaphore ∧
      pipe1.buffer main_init_pipe.buffer_watermark = 1 ∧
      ∀ j : Int, j ≠ main_init_pipe.buffer_watermark →
        pipe1.buffer j = main_init_pipe.buffer j :=
  C1_unapproved_enqueues_source sample_client main_init_pipe 1 4 1
    "system:capture_1" "X" (by decide) (by decide) (by decide) (by decide)
    Reachable.init (by decide)

theorem run_ops_overflow (id : jack_port_id_t) (n : Nat) :
    ∀ pipe : disconnect_pipe, pipe_inv pipe →
      pipe.buffer_watermark = 256 - (n : Int) →
      run_ops pipe (List.replicate (n + 1) (pipe_op.enqueue id)) =
        .error (.out_of_bounds 256) := by
  induction n with
  | zero =>
    intro pipe hi hw
    have hne : pipe.write_semaphore ≠ 0 := by have := hi.write_pos; omega
    have hw2 : pipe.buffer_watermark = 256 := by simpa using hw
    simp [List.replicate, run_ops, queue_element, sem_wait, BUFFER_CELLS, hne, hw2]
  | succ n ih =>
    intro pipe hi hw
    have hlt : pipe.buffer_watermark < 256 := by push_cast at hw; omega
    have hq := queue_element_ok pipe id hi hlt
    have hi1 := pipe_inv_queue hi hq
    rw [List.replicate_succ, run_ops, hq]
    exact ih _ hi1 (by push_cast at hw ⊢; show pipe.buffer_watermark + 1 = _; omega)

theorem reachable_fill (id : jack_port_id_t) (n : Nat) (hn : n ≤ 256) :
    ∃ pipe : disconnect_pipe, Reachable pipe ∧
      pipe.buffer_watermark = n ∧ pipe.write_semaphore = 1 := by
  induction n with
  | zero => exact ⟨main_init_pipe, Reachable.init, rfl, rfl⟩
  | succ n ih =>
    obtain ⟨pipe, hr, hw, hs⟩ := ih (by omega)
    have hq := queue_element_ok pipe id (reachable_inv hr) (by omega)
    exact ⟨_, Reachable.enqueue id hr hq, by simp [hw], hs⟩

/-- C5 (evaluation at the failing input): 256 calls of `queue_element` from
the initial pipe reach a pipe that holds 256 items and whose write semaphore
is 1, so the next `queue_element` does not block: it goes on to write
`buffer[256]`, outside the 256 cells of the buffer.  The same is seen on the
run of 257 enqueues from the initial pipe. -/
theorem C5_full_pipe_writes_out_of_bounds :
    (∃ pipe : disconnect_pipe, Reachable pipe ∧
      pipe.buffer_watermark = 256 ∧ pipe.write_semaphore = 1 ∧
      ∀ id : jack_port_id_t,
        queue_element pipe id = .error (.out_of_bounds 256)) ∧
    (∀ id : jack_port_id_t,
      run_ops main_init_pipe (List.replicate 257 (pipe_op.enqueue id)) =
        .error (.out_of_bounds 256)) := by
  constructor
  · obtain ⟨pipe, hr, hw, hs⟩ := reachable_fill 0 256 (le_refl _)
    refine ⟨pipe, hr, by simpa using hw, hs, ?_⟩
    intro id
    have hw2 : pipe.buffer_watermark = 256 := by simpa using hw
    simp [queue_element, sem_wait, BUFFER_CELLS, hs, hw2]
  · intro id
    exact run_ops_overflow id 256 main_init_pipe pipe_inv_init (by decide)

theorem update_zero_zero :
    Function.update (fun _ : Int => (0 : jack_port_id_t)) 0 0 = fun _ => 0 :=
  Function.update_eq_self 0 (fun _ : Int => (0 : jack_port_id_t))

theorem reachable_empty_with_write (w : Nat) (hw : 1 ≤ w)
    (hle : w ≤ SEM_VALUE_MAX) :
    Reachable { buffer := fun _ => 0
                buffer_watermark := 0
                read_semaphore := 0
                write_semaphore := w } := by
  induction w, hw using Nat.le_induction with
  | base => exact Reachable.init
  | succ w hw ih =>
    have hr := ih (by omega)
    have hq := queue_element_ok
      { buffer := fun _ => 0, buffer_watermark := 0, read_semaphore := 0,
        write_semaphore := w } 0 (reachable_inv hr) (show (0 : Int) < 256 by decide)
    have hr1 := Reachable.enqueue 0 hr hq
    have hr2 := Reachable.dequeue _ hr1
      (tryDequeue_item _ (show 1 ≤ 0 + 1 by omega) (show (1 : Int) ≤ 0 + 1 by omega)
        (show (0 : Int) + 1 ≤ 256 by omega))
    simp only [update_zero_zero, sem_post_lt w (by omega), Int.zero_add,
      Nat.zero_add, Int.sub_self, Nat.sub_self] at hr2
    exact hr2

theorem reachable_saturated_pipe : Reachable saturated_pipe := by
  have hr := reachable_empty_with_write SEM_VALUE_MAX (by decide) (le_refl _)
  have hq := queue_element_ok
    { buffer := fun _ => 0, buffer_watermark := 0, read_semaphore := 0,
      write_semaphore := SEM_VALUE_MAX } 0 (reachable_inv hr)
    (show (0 : Int) < 256 by decide)
  have hr1 := Reachable.enqueue 0 hr hq
  simp only [update_zero_zero, Int.zero_add, Nat.zero_add] at hr1
  exact hr1

/-- C7 (as amended): in every pipe state reached before any store outside
the buffer, `tryDequeue` returns (it neither blocks nor faults); it returns a
value exactly when the pipe holds an item; on an empty pipe it returns
nothing and the pipe is unchanged; on success the value is the cell at
`buffer_watermark - 1`, the watermark and the read semaphore each go down by
one, the buffer is untouched, and the write semaphore is posted once: it
goes up by one when it is below `SEM_VALUE_MAX` and stays when it is
`SEM_VALUE_MAX`. -/
theorem C7_tryDequeue (pipe : disconnect_pipe) (h : Reachable pipe) :
    (∃ r, tryDequeue pipe = .ok r) ∧
    ((∃ v pipe1, tryDequeue pipe = .ok (some v, pipe1)) ↔
      1 ≤ pipe.buffer_watermark) ∧
    (pipe.buffer_watermark = 0 → tryDequeue pipe = .ok (none, pipe)) ∧
    (1 ≤ pipe.buffer_watermark →
      ∃ pipe1, tryDequeue pipe =
          .ok (some (pipe.buffer (pipe.buffer_watermark - 1)), pipe1) ∧
        pipe1.buffer_watermark = pipe.buffer_watermark - 1 ∧
        pipe1.read_semaphore + 1 = pipe.read_semaphore ∧
        pipe1.write_semaphore = sem_post pipe.write_semaphore ∧
        (pipe.write_semaphore < SEM_VALUE_MAX →
          pipe1.write_semaphore = pipe.write_semaphore + 1) ∧
        (pipe.write_semaphore = SEM_VALUE_MAX →
          pipe1.write_semaphore = pipe.write_semaphore) ∧
        pipe1.buffer = pipe.buffer) := by
  obtain ⟨h0, h1, hr, hw, hwl⟩ := reachable_inv h
  have hempty : pipe.buffer_watermark = 0 → tryDequeue pipe = .ok (none, pipe) :=
    fun hz => tryDequeue_empty pipe (by omega)
  have hitem : 1 ≤ pipe.buffer_watermark → tryDequeue pipe =
      .ok (some (pipe.buffer (pipe.buffer_watermark - 1)),
        { buffer := pipe.buffer
          buffer_watermark := pipe.buffer_watermark - 1
          read_semaphore := pipe.read_semaphore - 1
          write_semaphore := sem_post pipe.write_semaphore }) :=
    fun hp => tryDequeue_item pipe (by omega) hp h1
  refine ⟨?_, ?_, hempty, ?_⟩
  · by_cases hz : pipe.buffer_watermark = 0
    · exact ⟨_, hempty hz⟩
    · exact ⟨_, hitem (by omega)⟩
  · constructor
    · rintro ⟨v, pipe1, hv⟩
      by_contra hn
      rw [hempty (by omega)] at hv
      cases hv
    · intro hp
      exact ⟨_, _, hitem hp⟩
  · intro hp
    refine ⟨_, hitem hp, rfl, by simp; omega, rfl, ?_, ?_, rfl⟩
    · intro hlt
      exact sem_post_lt _ hlt
    · intro he
      show sem_post pipe.write_semaphore = pipe.write_semaphore
      rw [he]
      exact sem_post_max

/-- Witness for C7 (as amended): the pipe holding the single id 1. -/
theorem C7_tryDequeue_witness :
    Reachable one_item_pipe ∧
    ∃ pipe1, tryDequeue one_item_pipe = .ok (some 1, pipe1) ∧
      pipe1.buffer_watermark = 0 ∧
      pipe1.read_semaphore + 1 = 1 ∧
      pipe1.write_semaphore = 2 ∧
      pipe1.buffer = one_item_pipe.buffer := by
  obtain ⟨pipe1, h1, h2, h3, h4, _, _, h7⟩ :=
    (C7_tryDequeue one_item_pipe
      (Reachable.enqueue 1 Reachable.init rfl)).2.2.2 (by decide)
  exact ⟨Reachable.enqueue 1 Reachable.init rfl, pipe1, h1, h2, h3, h4, h7⟩

/-- C7 (as stated) fails: `saturated_pipe` is reached from the initial pipe
(2^31 - 2 rounds of one enqueue and one dequeue, then one enqueue) and holds
one item; `tryDequeue` returns that item, but the write semaphore does not
grow by one: its `sem_post` fails at `SEM_VALUE_MAX` and the count stays. -/
theorem C7_counterexample_write_semaphore_saturated :
    Reachable saturated_pipe ∧
    1 ≤ saturated_pipe.buffer_watermark ∧
    ∃ pipe1 : disconnect_pipe,
      tryDequeue saturated_pipe = .ok (some 0, pipe1) ∧
      pipe1.write_semaphore = saturated_pipe.write_semaphore ∧
      pipe1.write_semaphore ≠ saturated_pipe.write_semaphore + 1 := by
  refine ⟨reachable_saturated_pipe, by decide, _,
    tryDequeue_item saturated_pipe (by decide) (by decide) (by decide), ?_, ?_⟩
  · exact sem_post_max
  · show sem_post SEM_VALUE_MAX ≠ SEM_VALUE_MAX + 1
    rw [sem_post_max]
    omega

theorem stored_push (pipe : disconnect_pipe) (id : jack_port_id_t)
    (h0 : 0 ≤ pipe.buffer_watermark) :
    stored { buffer := Function.update pipe.buffer pipe.buffer_watermark id
             buffer_watermark := pipe.buffer_watermark + 1
             read_semaphore := pipe.read_semaphore + 1
             write_semaphore := pipe.write_semaphore } = stored pipe ++ [id] := by
  obtain ⟨n, hn⟩ := Int.eq_ofNat_of_zero_le h0
  have h1 : (pipe.buffer_watermark + 1).toNat = n + 1 := by omega
  have h2 : pipe.buffer_watermark.toNat = n := by omega
  simp only [stored, h1, h2, List.range_succ, List.map_append, List.map_cons,
    List.map_nil]
  congr 1
  · apply List.map_congr_left
    intro i hi
    have hi2 : i < n := List.mem_range.mp hi
    have hne : (i : Int) ≠ pipe.buffer_watermark := by omega
    simp [Function.update, hne]
  · have hu : Function.update pipe.buffer pipe.buffer_watermark id (Int.ofNat n) = id := by
      rw [Int.ofNat_eq_coe, ← hn]
      exact Function.update_same _ _ _
    rw [hu]

theorem stored_pop (pipe : disconnect_pipe) (h0 : 1 ≤ pipe.buffer_watermark) :
    stored pipe =
      stored { buffer := pipe.buffer
               buffer_watermark := pipe.buffer_watermark - 1
               read_semaphore := pipe.read_semaphore - 1
               write_semaphore := sem_post pipe.write_semaphore }
        ++ [pipe.buffer (pipe.buffer_watermark - 1)] := by
  obtain ⟨n, hn⟩ := Int.eq_ofNat_of_zero_le (show 0 ≤ pipe.buffer_watermark - 1 by omega)
  have h1 : (pipe.buffer_watermark - 1).toNat = n := by omega
  have h2 : pipe.buffer_watermark.toNat = n + 1 := by omega
  simp only [stored, h1, h2, List.range_succ, List.map_append, List.map_cons,
    List.map_nil, hn, Int.ofNat_eq_coe]
  simp

theorem run_ops_accounts (ops : List pipe_op) :
    ∀ (pipe : disconnect_pipe) (held : Nat), pipe_inv pipe →
      pipe.buffer_watermark = held →
      holds_at_most 256 held ops = true →
      ∃ (pipe1 : disconnect_pipe) (out : List jack_port_id_t),
        run_ops pipe ops = .ok (pipe1, out) ∧ pipe_inv pipe1 ∧
        ((out : Multiset jack_port_id_t) + (stored pipe1 : Multiset jack_port_id_t)
          = (stored pipe : Multiset jack_port_id_t) + (enqueued ops : Multiset jack_port_id_t)) := by
  induction ops with
  | nil =>
    intro pipe held hi _ _
    exact ⟨pipe, [], rfl, hi, by simp [enqueued]⟩
  | cons op ops ih =>
    intro pipe held hi hh hfit
    cases op with
    | enqueue id =>
      simp only [holds_at_most, Bool.and_eq_true, decide_eq_true_eq] at hfit
      have hlt : pipe.buffer_watermark < 256 := by omega
      have hq := queue_element_ok pipe id hi hlt
      obtain ⟨pipe1, out, hrun, hi1, hms⟩ :=
        ih _ (held + 1) (pipe_inv_queue hi hq) (by simp [hh]) hfit.2
      refine ⟨pipe1, out, by simp [run_ops, hq, hrun], hi1, ?_⟩
      rw [hms, stored_push pipe id hi.nonneg]
      simp only [enqueued, Multiset.coe_add, Multiset.coe_eq_coe]
      simp
    | dequeue =>
      simp only [holds_at_most] at hfit
      by_cases hz : pipe.read_semaphore = 0
      · have hd := tryDequeue_empty pipe hz
        have hheld : held = 0 := by have := hi.read_eq; omega
        obtain ⟨pipe1, out, hrun, hi1, hms⟩ :=
          ih pipe held hi hh (by simpa [hheld] using hfit)
        exact ⟨pipe1, out, by simp [run_ops, hd, hrun], hi1, by simpa [enqueued] using hms⟩
      · have hr := hi.read_eq
        have hb := hi.bounded
        have hd := tryDequeue_item pipe (by omega) (by omega) hb
        obtain ⟨pipe1, out, hrun, hi1, hms⟩ :=
          ih _ (held - 1) (pipe_inv_dequeue hi hd) (by simp; omega) hfit
        refine ⟨pipe1, pipe.buffer (pipe.buffer_watermark - 1) :: out,
          by simp [run_ops, hd, hrun], hi1, ?_⟩
        rw [stored_pop pipe (by omega), ← Multiset.cons_coe, Multiset.cons_add, hms]
        simp only [enqueued, Multiset.coe_add, Multiset.coe_eq_coe, Multiset.cons_coe]
        rw [List.append_assoc]
        exact List.perm_middle.symm

/-- C6: every sequence of `queue_element` and `tryDequeue` operations that
never holds more than 256 values runs to the end from the initial pipe, and
the values returned by the dequeues together with the values still stored
below the watermark are, as a multiset, exactly the values enqueued.  So
every returned value was enqueued (the statement holds for each initial
segment of a run too), and when the pipe ends empty the returned values are
exactly the enqueued ones, each as often as it was enqueued. -/
theorem C6_no_loss_no_duplication (ops : List pipe_op)
    (hfit : holds_at_most 256 0 ops = true) :
    ∃ (pipe : disconnect_pipe) (out : List jack_port_id_t),
      run_ops main_init_pipe ops = .ok (pipe, out) ∧
      ((out : Multiset jack_port_id_t) + (stored pipe : Multiset jack_port_id_t)
        = (enqueued ops : Multiset jack_port_id_t)) ∧
      (∀ v ∈ out, v ∈ enqueued ops) ∧
      (pipe.buffer_watermark = 0 →
        (out : Multiset jack_port_id_t) = (enqueued ops : Multiset jack_port_id_t)) := by
  obtain ⟨pipe, out, hrun, _, hms⟩ :=
    run_ops_accounts ops main_init_pipe 0 pipe_inv_init rfl hfit
  have hinit : stored main_init_pipe = [] := rfl
  rw [hinit, Multiset.coe_nil, zero_add] at hms
  refine ⟨pipe, out, hrun, hms, ?_, ?_⟩
  · intro v hv
    have hmem : v ∈ ((out : Multiset jack_port_id_t) + (stored pipe : Multiset jack_port_id_t)) :=
      Multiset.mem_add.mpr (Or.inl (Multiset.mem_coe.mpr hv))
    rw [hms] at hmem
    exact Multiset.mem_coe.mp hmem
  · intro hz
    have hs : stored pipe = [] := by simp [stored, hz]
    rw [hs, Multiset.coe_nil, add_zero] at hms
    exact hms

/-- Witness for C6: two enqueues, a dequeue, an enqueue and two dequeues. -/
theorem C6_no_loss_no_duplication_witness :
    ∃ (pipe : disconnect_pipe) (out : List jack_port_id_t),
      run_ops main_init_pipe
        [pipe_op.enqueue 1, pipe_op.enqueue 2, pipe_op.dequeue,
         pipe_op.enqueue 3, pipe_op.dequeue, pipe_op.dequeue] = .ok (pipe, out) ∧
      ((out : Multiset jack_port_id_t) + (stored pipe : Multiset jack_port_id_t)
        = (enqueued [pipe_op.enqueue 1, pipe_op.enqueue 2, pipe_op.dequeue,
         pipe_op.enqueue 3, pipe_op.dequeue, pipe_op.dequeue]
            : Multiset jack_port_id_t)) ∧
      (∀ v ∈ out, v ∈ enqueued [pipe_op.enqueue 1, pipe_op.enqueue 2,
         pipe_op.dequeue, pipe_op.enqueue 3, pipe_op.dequeue, pipe_op.dequeue]) ∧
      (pipe.buffer_watermark = 0 →
        (out : Multiset jack_port_id_t) =
          (enqueued [pipe_op.enqueue 1, pipe_op.enqueue 2, pipe_op.dequeue,
            pipe_op.enqueue 3, pipe_op.dequeue, pipe_op.dequeue]
              : Multiset jack_port_id_t)) :=
  C6_no_loss_no_duplication _ (by decide)

/-! ## The reconnect policy on the graph -/

theorem jack_connect_ports (g : jack_client_t) (a b : String) :
    (jack_connect g a b).ports = g.ports := by
  unfold jack_connect
  split <;> rfl

theorem jack_connect_mono (g : jack_client_t) (a b : String) :
    g.connections ⊆ (jack_connect g a b).connections := by
  unfold jack_connect
  split
  · exact Finset.subset_insert _ _
  · exact Finset.Subset.refl _

theorem jack_port_by_name_ports {g g1 : jack_client_t} (h : g1.ports = g.ports)
    (n : String) : jack_port_by_name g1 n = jack_port_by_name g n := by
  simp [jack_port_by_name, h]

theorem jack_connect_mem_or (g : jack_client_t) (a b : String) :
    (a, b) ∈ (jack_connect g a b).connections ∨
      ¬ ((jack_port_by_name g a).isSome ∧ (jack_port_by_name g b).isSome) := by
  unfold jack_connect
  split
  · exact Or.inl (Finset.mem_insert_self _ _)
  · rename_i h
    exact Or.inr h

theorem jack_connect_fixed (g : jack_client_t) (a b : String)
    (h : (a, b) ∈ g.connections ∨
      ¬ ((jack_port_by_name g a).isSome ∧ (jack_port_by_name g b).isSome)) :
    jack_connect g a b = g := by
  unfold jack_connect
  split
  · rename_i hc
    rcases h with h | h
    · rw [Finset.insert_eq_of_mem h]
    · exact absurd hc h
  · rfl

theorem apply_calls_cons (g : jack_client_t) (c : jack_call) (cs : List jack_call) :
    apply_calls g (c :: cs) = apply_calls (apply_call g c) cs := rfl

theorem apply_calls_connects (cs : List jack_call)
    (hcs : ∀ c ∈ cs, ∃ a b, c = jack_call.connect a b) :
    ∀ g : jack_client_t,
      (apply_calls g cs).ports = g.ports ∧
      g.connections ⊆ (apply_calls g cs).connections ∧
      ∀ c ∈ cs, apply_call (apply_calls g cs) c = apply_calls g cs := by
  induction cs with
  | nil => intro g; exact ⟨rfl, Finset.Subset.refl _, by simp⟩
  | cons c cs ih =>
    intro g
    obtain ⟨a, b, rfl⟩ := hcs _ (List.mem_cons_self _ _)
    obtain ⟨hp, hm, hfix⟩ :=
      ih (fun c hc => hcs c (List.mem_cons_of_mem _ hc)) (jack_connect g a b)
    rw [apply_calls_cons]
    simp only [apply_call] at *
    refine ⟨hp.trans (jack_connect_ports g a b),
      (jack_connect_mono g a b).trans hm, ?_⟩
    intro c hc
    rcases List.mem_cons.mp hc with rfl | hc
    · apply jack_connect_fixed
      rcases jack_connect_mem_or g a b with h | h
      · exact Or.inl (hm h)
      · right
        have hpp := hp.trans (jack_connect_ports g a b)
        rw [jack_port_by_name_ports hpp, jack_port_by_name_ports hpp]
        exact h
    · exact hfix c hc

theorem apply_calls_fixed (cs : List jack_call) (g : jack_client_t)
    (h : ∀ c ∈ cs, apply_call g c = g) : apply_calls g cs = g := by
  induction cs with
  | nil => rfl
  | cons c cs ih =>
    rw [apply_calls_cons, h c (List.mem_cons_self _ _)]
    exact ih (fun c hc => h c (List.mem_cons_of_mem _ hc))

theorem try_reconnect_mic_on_connects (mics dests : List String) :
    ∀ c ∈ try_reconnect_mic_on mics dests, ∃ a b, c = jack_call.connect a b := by
  intro c hc
  simp only [try_reconnect_mic_on, List.mem_map] at hc
  obtain ⟨i, _, rfl⟩ := hc
  exact ⟨_, _, rfl⟩

/-- C8: on every graph, with `jack_connect` inserting its pair when it
succeeds, running `try_reconnect_mic` twice in a row gives the same graph as
running it once; this holds for the arrays of the program and for any other
pair of arrays. -/
theorem C8_reconnect_idempotent (g : jack_client_t) :
    apply_calls (apply_calls g try_reconnect_mic) try_reconnect_mic =
      apply_calls g try_reconnect_mic ∧
    ∀ mics dests : List String,
      apply_calls (apply_calls g (try_reconnect_mic_on mics dests))
          (try_reconnect_mic_on mics dests) =
        apply_calls g (try_reconnect_mic_on mics dests) := by
  have key : ∀ mics dests : List String,
      apply_calls (apply_calls g (try_reconnect_mic_on mics dests))
          (try_reconnect_mic_on mics dests) =
        apply_calls g (try_reconnect_mic_on mics dests) := by
    intro mics dests
    apply apply_calls_fixed
    exact (apply_calls_connects _ (try_reconnect_mic_on_connects mics dests) g).2.2
  exact ⟨key _ _, key⟩

/-! ## Startup -/

theorem jack_port_by_name_name {g : jack_client_t} {n : String} {p : jack_port_t}
    (h : jack_port_by_name g n = some p) : p.name = n := by
  have := List.find?_some h
  simpa using this

theorem disconnect_all_port_connections_calls (client : jack_client_t)
    (n : String) :
    ∀ c ∈ disconnect_all_port_connections client n,
      ∃ p, c = jack_call.port_disconnect (some p) ∧ p.name = n := by
  intro c hc
  unfold disconnect_all_port_connections at hc
  split at hc
  · simp at hc
  · rename_i p hp
    simp only [List.mem_singleton] at hc
    exact ⟨p, hc, jack_port_by_name_name hp⟩

theorem jack_connect_ok (ps : List jack_port_t) (cs : Finset (String × String))
    (a b : String)
    (ha : (jack_port_by_name ⟨ps, ∅⟩ a).isSome)
    (hb : (jack_port_by_name ⟨ps, ∅⟩ b).isSome) :
    jack_connect ⟨ps, cs⟩ a b = ⟨ps, insert (a, b) cs⟩ := by
  have ha1 : (jack_port_by_name ⟨ps, cs⟩ a).isSome := ha
  have hb1 : (jack_port_by_name ⟨ps, cs⟩ b).isSome := hb
  simp [jack_connect, ha1, hb1]

theorem startup_graph (client : jack_client_t) (p1 p2 : jack_port_t)
    (h1 : jack_port_by_name client "system:capture_1" = some p1)
    (h2 : jack_port_by_name client "system:capture_2" = some p2)
    (hd : ∀ n ∈ acceptable_mic_connections, (jack_port_by_name client n).isSome) :
    main_startup client =
      [jack_call.port_disconnect (some p1), jack_call.port_disconnect (some p2)]
        ++ try_reconnect_mic ∧
    (apply_calls client (main_startup client)).connections =
      insert ("system:capture_2", "ardour:Mic loopback/audio_in 2")
        (insert ("system:capture_1", "ardour:Mic loopback/audio_in 1")
          (insert ("system:capture_2", "ardour:Mic/audio_in 2")
            (insert ("system:capture_1", "ardour:Mic/audio_in 1")
              ((client.connections.filter
                  (fun c => c.1 ≠ "system:capture_1" ∧ c.2 ≠ "system:capture_1")).filter
                (fun c => c.1 ≠ "system:capture_2" ∧ c.2 ≠ "system:capture_2"))))) := by
  have n1 := jack_port_by_name_name h1
  have n2 := jack_port_by_name_name h2
  have hs : main_startup client =
      [jack_call.port_disconnect (some p1), jack_call.port_disconnect (some p2)]
        ++ try_reconnect_mic := by
    simp [main_startup, mic_ports, disconnect_all_port_connections, h1, h2]
  refine ⟨hs, ?_⟩
  have d1 := hd "ardour:Mic/audio_in 1" (by decide)
  have d2 := hd "ardour:Mic/audio_in 2" (by decide)
  have d3 := hd "ardour:Mic loopback/audio_in 1" (by decide)
  have d4 := hd "ardour:Mic loopback/audio_in 2" (by decide)
  have m1 : (jack_port_by_name client "system:capture_1").isSome := by rw [h1]; rfl
  have m2 : (jack_port_by_name client "system:capture_2").isSome := by rw [h2]; rfl
  obtain ⟨ps, cs⟩ := client
  rw [hs, try_reconnect_mic_calls]
  simp only [apply_calls, List.foldl, apply_call, jack_port_disconnect,
    List.cons_append, List.nil_append, n1, n2]
  rw [jack_connect_ok _ _ _ _ m1 d1, jack_connect_ok _ _ _ _ m2 d2,
    jack_connect_ok _ _ _ _ m1 d3, jack_connect_ok _ _ _ _ m2 d4]


theorem round_robin_share (k : Nat) (x : String) :
    (∃ (i : Nat) (hi : i < acceptable_mic_connections.length),
        i % mic_ports.length = k ∧ x = acceptable_mic_connections.get ⟨i, hi⟩) ↔
      (k = 0 ∧ (x = "ardour:Mic/audio_in 1" ∨ x = "ardour:Mic loopback/audio_in 1")) ∨
      (k = 1 ∧ (x = "ardour:Mic/audio_in 2" ∨ x = "ardour:Mic loopback/audio_in 2")) := by
  constructor
  · rintro ⟨i, hi, hk, hx⟩
    have hi4 : i < 4 := hi
    interval_cases i
    · exact Or.inl ⟨hk.symm, Or.inl hx⟩
    · exact Or.inr ⟨hk.symm, Or.inl hx⟩
    · exact Or.inl ⟨hk.symm, Or.inr hx⟩
    · exact Or.inr ⟨hk.symm, Or.inr hx⟩
  · rintro (⟨rfl, rfl | rfl⟩ | ⟨rfl, rfl | rfl⟩)
    · exact ⟨0, by decide, rfl, rfl⟩
    · exact ⟨2, by decide, rfl, rfl⟩
    · exact ⟨1, by decide, rfl, rfl⟩
    · exact ⟨3, by decide, rfl, rfl⟩

/-- C9: the calls of the startup block are, for the monitored ports in
`mic_ports` order, one `jack_port_disconnect` on each port that the lookup by
name finds, followed by the calls of `try_reconnect_mic`, so every
disconnect precedes every connect.  When every port the program names
exists, there is exactly one disconnect per monitored port, in `mic_ports`
order, and in the graph after startup, whatever the connections before,
`mic_ports[k]` is the source of exactly the connections to the approved
destinations of index `i` with `i mod |mic_ports| = k` and the destination
of none. -/
theorem C9_startup (client : jack_client_t) :
    (∃ ds : List jack_call,
      main_startup client = ds ++ try_reconnect_mic ∧
      ds = mic_ports.filterMap (fun n =>
        (jack_port_by_name client n).map
          (fun p => jack_call.port_disconnect (some p))) ∧
      (∀ c ∈ ds, ∃ p, c = jack_call.port_disconnect (some p) ∧ p.name ∈ mic_ports) ∧
      (∀ c ∈ try_reconnect_mic, ∃ a b, c = jack_call.connect a b)) ∧
    ((∀ n ∈ mic_ports ++ acceptable_mic_connections,
        (jack_port_by_name client n).isSome) →
      (∃ p1 p2 : jack_port_t,
        jack_port_by_name client "system:capture_1" = some p1 ∧
        jack_port_by_name client "system:capture_2" = some p2 ∧
        main_startup client =
          [jack_call.port_disconnect (some p1),
           jack_call.port_disconnect (some p2)] ++ try_reconnect_mic) ∧
      (∀ (k : Nat) (hk : k < mic_ports.length) (x : String),
        ((mic_ports.get ⟨k, hk⟩, x) ∈
            (apply_calls client (main_startup client)).connections ↔
          ∃ (i : Nat) (hi : i < acceptable_mic_connections.length),
            i % mic_ports.length = k ∧
            x = acceptable_mic_connections.get ⟨i, hi⟩) ∧
        (x, mic_ports.get ⟨k, hk⟩) ∉
            (apply_calls client (main_startup client)).connections)) := by
  constructor
  · refine ⟨_, rfl, ?_, ?_, try_reconnect_mic_on_connects _ _⟩
    · simp only [mic_ports, disconnect_all_port_connections, List.map_cons,
        List.map_nil, List.filterMap_cons, List.filterMap_nil]
      cases jack_port_by_name client "system:capture_1" <;>
        cases jack_port_by_name client "system:capture_2" <;> rfl
    intro c hc
    simp only [List.mem_flatten, List.mem_map] at hc
    obtain ⟨l, ⟨n, hn, rfl⟩, hcl⟩ := hc
    obtain ⟨p, hp, hpn⟩ := disconnect_all_port_connections_calls client n c hcl
    exact ⟨p, hp, hpn ▸ hn⟩
  · intro hports
    have e1 : (jack_port_by_name client "system:capture_1").isSome :=
      hports _ (by decide)
    have e2 : (jack_port_by_name client "system:capture_2").isSome :=
      hports _ (by decide)
    obtain ⟨p1, h1⟩ := Option.isSome_iff_exists.mp e1
    obtain ⟨p2, h2⟩ := Option.isSome_iff_exists.mp e2
    have hd : ∀ n ∈ acceptable_mic_connections, (jack_port_by_name client n).isSome :=
      fun n hn => hports n (List.mem_append_right _ hn)
    obtain ⟨hs, hg⟩ := startup_graph client p1 p2 h1 h2 hd
    refine ⟨⟨p1, p2, h1, h2, hs⟩, ?_⟩
    intro k hk x
    rw [round_robin_share, hg]
    have hk2 : k < 2 := hk
    interval_cases k
    · have hm : mic_ports.get ⟨0, hk⟩ = "system:capture_1" := rfl
      rw [hm]
      simp [Finset.mem_insert, Finset.mem_filter]
      tauto
    · have hm : mic_ports.get ⟨1, hk⟩ = "system:capture_2" := rfl
      rw [hm]
      simp [Finset.mem_insert, Finset.mem_filter]
      tauto

/-- Witness for C9: a graph with all six named ports in which capture_1 is
connected to the foreign port `X`; after startup that connection is gone. -/
theorem C9_startup_witness :
    (∀ n ∈ mic_ports ++ acceptable_mic_connections,
      (jack_port_by_name full_client n).isSome) ∧
    ("system:capture_1", "X") ∈ full_client.connections ∧
    ("system:capture_1", "X") ∉
      (apply_calls full_client (main_startup full_client)).connections :=
  ⟨by decide, by decide, fun h => by
    have hx := (((C9_startup full_client).2 (by decide)).2 0 (by decide) "X").1.mp h
    rw [round_robin_share] at hx
    revert hx
    decide⟩

/-! ## The drain pass of the control loop -/

theorem drain_loop_spec (client : jack_client_t) (n : Nat) :
    ∀ (pipe : disconnect_pipe) (fuel : Nat),
      pipe.buffer_watermark = n → pipe.read_semaphore = n → n ≤ 256 →
      n + 1 ≤ fuel →
      ∃ pipe1 : disconnect_pipe,
        drain_loop client fuel pipe = .ok (pipe1,
          ((stored pipe).reverse.map (fun id =>
            jack_call.port_disconnect (jack_port_by_id client id)
              :: try_reconnect_mic)).flatten) ∧
        pipe1.buffer_watermark = 0 ∧ pipe1.read_semaphore = 0 ∧
        pipe1.buffer = pipe.buffer := by
  induction n with
  | zero =>
    intro pipe fuel hw hr _ hf
    obtain ⟨fuel, rfl⟩ : ∃ f, fuel = f + 1 := ⟨fuel - 1, by omega⟩
    have hs : stored pipe = [] := by simp [stored, hw]
    refine ⟨pipe, ?_, by simpa using hw, hr, rfl⟩
    simp [drain_loop, tryDequeue_empty pipe hr, hs]
  | succ n ih =>
    intro pipe fuel hw hr hn hf
    obtain ⟨fuel, rfl⟩ : ∃ f, fuel = f + 1 := ⟨fuel - 1, by omega⟩
    have hd := tryDequeue_item pipe (by omega) (by omega) (by omega)
    obtain ⟨pipe1, hrun, h0, h1, h3⟩ :=
      ih { buffer := pipe.buffer
           buffer_watermark := pipe.buffer_watermark - 1
           read_semaphore := pipe.read_semaphore - 1
           write_semaphore := sem_post pipe.write_semaphore } fuel
        (by simp [hw]) (by simp [hr]) (by omega) (by omega)
    refine ⟨pipe1, ?_, h0, h1, h3⟩
    rw [stored_pop pipe (by omega)]
    simp [drain_loop, hd, hrun]

/-- C10: one drain pass on a reachable pipe returns, leaves the pipe empty
and issues, for each stored id from the top of the buffer down, one
`jack_port_disconnect` on the port looked up for that id followed by all the
calls of `try_reconnect_mic`.  Starting from an empty reachable pipe, the
event (P1, X) with P1 the first monitored port and X not approved, followed
by one drain pass, issues exactly disconnect(P1), connect(P1,D1),
connect(P2,D2), connect(P1,D3), connect(P2,D4). -/
theorem C10_drain_pass (client : jack_client_t) (pipe : disconnect_pipe)
    (h : Reachable pipe) :
    (∃ pipe1 : disconnect_pipe,
      drain_pass client pipe = .ok (pipe1,
        ((stored pipe).reverse.map (fun id =>
          jack_call.port_disconnect (jack_port_by_id client id)
            :: try_reconnect_mic)).flatten) ∧
      pipe1.buffer_watermark = 0 ∧ pipe1.read_semaphore = 0) ∧
    (∀ (id_a id_b : jack_port_id_t) (is_connected : Int) (port_a : jack_port_t)
        (name_b : String),
      pipe.buffer_watermark = 0 →
      jack_port_by_id client id_a = some port_a →
      port_a.name = "system:capture_1" →
      jack_port_name (jack_port_by_id client id_b) = some name_b →
      name_b ∉ acceptable_mic_connections →
      ∃ pipe1 pipe2 : disconnect_pipe,
        on_port_connect client pipe id_a id_b is_connected = .ok pipe1 ∧
        drain_pass client pipe1 = .ok (pipe2,
          [jack_call.port_disconnect (some port_a),
           jack_call.connect "system:capture_1" "ardour:Mic/audio_in 1",
           jack_call.connect "system:capture_2" "ardour:Mic/audio_in 2",
           jack_call.connect "system:capture_1" "ardour:Mic loopback/audio_in 1",
           jack_call.connect "system:capture_2" "ardour:Mic loopback/audio_in 2"]) ∧
        pipe2.buffer_watermark = 0 ∧ pipe2.read_semaphore = 0) := by
  obtain ⟨h0, h1, hr, hw, hwl⟩ := reachable_inv h
  constructor
  · obtain ⟨n, hn⟩ := Int.eq_ofNat_of_zero_le h0
    obtain ⟨pipe1, hrun, hz, hz2, _⟩ :=
      drain_loop_spec client n pipe (pipe.read_semaphore + 1) hn (by omega)
        (by omega) (by omega)
    exact ⟨pipe1, hrun, hz, hz2⟩
  · intro id_a id_b is_connected port_a name_b hz ha hna hb hbad
    have hname : jack_port_name (jack_port_by_id client id_a) = some "system:capture_1" := by
      simp [ha, jack_port_name, hna]
    have hq := queue_element_ok pipe id_a (reachable_inv h) (by omega)
    have hc := on_port_connect_unapproved client pipe id_a id_b is_connected
      "system:capture_1" name_b hname hb (by decide) hbad
    rw [hq] at hc
    have hempty : stored pipe = [] := by simp [stored, hz]
    have hs := stored_push pipe id_a h0
    rw [hempty, List.nil_append] at hs
    obtain ⟨pipe2, hrun, hz1, hz2, _⟩ :=
      drain_loop_spec client 1
        { buffer := Function.update pipe.buffer pipe.buffer_watermark id_a
          buffer_watermark := pipe.buffer_watermark + 1
          read_semaphore := pipe.read_semaphore + 1
          write_semaphore := pipe.write_semaphore }
        (pipe.read_semaphore + 1 + 1)
        (show pipe.buffer_watermark + 1 = ((1 : Nat) : Int) by simp [hz])
        (show pipe.read_semaphore + 1 = 1 by omega) (by omega) (by omega)
    refine ⟨_, pipe2, hc, ?_, hz1, hz2⟩
    rw [drain_pass, hrun, hs, ← try_reconnect_mic_calls]
    simp [ha]

/-- Witness for C10: the event (capture_1, X) on the initial pipe, then one
drain pass. -/
theorem C10_drain_pass_witness :
    ∃ pipe1 pipe2 : disconnect_pipe,
      on_port_connect sample_client main_init_pipe 1 4 1 = .ok pipe1 ∧
      drain_pass sample_client pipe1 = .ok (pipe2,
        [jack_call.port_disconnect (some ⟨1, "system:capture_1"⟩),
         jack_call.connect "system:capture_1" "ardour:Mic/audio_in 1",
         jack_call.connect "system:capture_2" "ardour:Mic/audio_in 2",
         jack_call.connect "system:capture_1" "ardour:Mic loopback/audio_in 1",
         jack_call.connect "system:capture_2" "ardour:Mic loopback/audio_in 2"]) ∧
      pipe2.buffer_watermark = 0 ∧ pipe2.read_semaphore = 0 :=
  (C10_drain_pass sample_client main_init_pipe Reachable.init).2 1 4 1
    ⟨1, "system:capture_1"⟩ "X" rfl (by decide) rfl (by decide) (by decide)

/-! ## Failed lookups -/

theorem on_port_connect_unknown_source (client : jack_client_t)
    (pipe : disconnect_pipe) (id_a id_b : jack_port_id_t) (is_connected : Int)
    (ha : jack_port_by_id client id_a = none) :
    on_port_connect client pipe id_a id_b is_connected = .error .null_deref := by
  simp [on_port_connect, ha, jack_port_name, mic_ports, is_mic_loop, strcmp]

theorem should_disconnect_loop_none (cur : String) (rest : List String) :
    should_disconnect_loop none (cur :: rest) = .error .null_deref := by
  simp [should_disconnect_loop, strcmp]

theorem on_port_connect_unknown_destination (client : jack_client_t)
    (pipe : disconnect_pipe) (id_a id_b : jack_port_id_t) (is_connected : Int)
    (name_a : String)
    (ha : jack_port_name (jack_port_by_id client id_a) = some name_a)
    (hmic : name_a ∈ mic_ports)
    (hb : jack_port_by_id client id_b = none) :
    on_port_connect client pipe id_a id_b is_connected = .error .null_deref := by
  have hbn : jack_port_name (jack_port_by_id client id_b) = none := by
    simp [hb, jack_port_name]
  simp only [on_port_connect, ha, hbn, is_mic_loop_some, hmic, decide_True,
    acceptable_mic_connections, should_disconnect_loop_none]

/-- C11 (evaluation at the failing inputs): `on_port_connect` does not
complete when a lookup by id fails.  With an unknown source id the first
`strcmp` of the first loop gets the null name; with a microphone source and
an unknown destination id the first `strcmp` of the second loop gets it.
This holds on every graph and pipe, here shown on `sample_client`, where no
port has the id 99. -/
theorem C11_unknown_port_faults :
    jack_port_by_id sample_client 99 = none ∧
    on_port_connect sample_client main_init_pipe 99 3 1 = .error .null_deref ∧
    on_port_connect sample_client main_init_pipe 1 99 1 = .error .null_deref :=
  ⟨by decide,
   on_port_connect_unknown_source sample_client main_init_pipe 99 3 1 (by decide),
   on_port_connect_unknown_destination sample_client main_init_pipe 1 99 1
     "system:capture_1" (by decide) (by decide) (by decide)⟩

/-- C12 (evaluation at the failing input): the drain pass on a pipe that
holds one id whose lookup fails still issues a `jack_port_disconnect`, with
the null handle, before the calls of `try_reconnect_mic`; it returns and
leaves the pipe empty. -/
theorem C12_stale_id_disconnect_issued :
    jack_port_by_id sample_client 9 = none ∧
    Reachable stale_pipe ∧
    ∃ pipe1 : disconnect_pipe,
      drain_pass sample_client stale_pipe = .ok (pipe1,
        jack_call.port_disconnect none :: try_reconnect_mic) ∧
      pipe1.buffer_watermark = 0 ∧ pipe1.read_semaphore = 0 := by
  refine ⟨by decide, Reachable.enqueue 9 Reachable.init rfl, ?_⟩
  obtain ⟨pipe1, hrun, h0, h1, _⟩ :=
    drain_loop_spec sample_client 1 stale_pipe (stale_pipe.read_semaphore + 1)
      rfl rfl (by decide) (by decide)
  refine ⟨pipe1, ?_, h0, h1⟩
  have hs : stored stale_pipe = [9] := by
    simp [stored, stale_pipe, List.range_succ]
  have hl : jack_port_by_id sample_client 9 = none := by decide
  rw [drain_pass, hrun, hs]
  simp [hl]

/-- C13: when the lookup of a port name fails,
`disconnect_all_port_connections` issues no call; the startup block then
issues exactly the calls for the other monitored ports, in order, followed
by the calls of `try_reconnect_mic`. -/
theorem C13_failed_name_lookup_no_op (client : jack_client_t) (name : String)
    (h : jack_port_by_name client name = none) :
    disconnect_all_port_connections client name = [] ∧
    main_startup client =
      ((mic_ports.filter (fun n => decide (n ≠ name))).map
        (disconnect_all_port_connections client)).flatten
        ++ try_reconnect_mic := by
  have hd : disconnect_all_port_connections client name = [] := by
    simp [disconnect_all_port_connections, h]
  refine ⟨hd, ?_⟩
  by_cases h1 : name = "system:capture_1"
  · subst h1
    simp [main_startup, mic_ports, hd, List.filter]
  · by_cases h2 : name = "system:capture_2"
    · subst h2
      simp [main_startup, mic_ports, hd, List.filter]
    · have e1 : decide ("system:capture_1" ≠ name) = true :=
        decide_eq_true (fun e => h1 e.symm)
      have e2 : decide ("system:capture_2" ≠ name) = true :=
        decide_eq_true (fun e => h2 e.symm)
      simp only [main_startup, mic_ports, List.filter, e1, e2]

/-- Witness for C13: on a machine without `system:capture_2` the startup
block issues the disconnect of `system:capture_1` and the four connects. -/
theorem C13_failed_name_lookup_no_op_witness :
    jack_port_by_name mono_client "system:capture_2" = none ∧
    disconnect_all_port_connections mono_client "system:capture_2" = [] ∧
    main_startup mono_client =
      ((mic_ports.filter (fun n => decide (n ≠ "system:capture_2"))).map
        (disconnect_all_port_connections mono_client)).flatten
        ++ try_reconnect_mic :=
  ⟨by decide,
   C13_failed_name_lookup_no_op mono_client "system:capture_2" (by decide)⟩

/-! ## The flag, the initial pipe and the semaphore invariants -/

/-- C15: the value of `is_connected` has no influence on `on_port_connect`:
for all ids, every graph, every pipe and any two values of the flag the
results are the same; in particular for a monitored source and an unapproved
destination a disconnect notification (flag 0) and a connect notification
(flag 1) both do `queue_element` with the source id. -/
theorem C15_flag_ignored (client : jack_client_t) (pipe : disconnect_pipe)
    (id_a id_b : jack_port_id_t) (c1 c2 : Int) :
    on_port_connect client pipe id_a id_b c1 =
      on_port_connect client pipe id_a id_b c2 ∧
    ∀ name_a name_b : String,
      jack_port_name (jack_port_by_id client id_a) = some name_a →
      jack_port_name (jack_port_by_id client id_b) = some name_b →
      name_a ∈ mic_ports → name_b ∉ acceptable_mic_connections →
      on_port_connect client pipe id_a id_b 0 = queue_element pipe id_a ∧
      on_port_connect client pipe id_a id_b 1 = queue_element pipe id_a :=
  ⟨rfl, fun name_a name_b ha hb hmic hbad =>
    ⟨on_port_connect_unapproved client pipe id_a id_b 0 name_a name_b ha hb hmic hbad,
     on_port_connect_unapproved client pipe id_a id_b 1 name_a name_b ha hb hmic hbad⟩⟩

/-- Witness for C15: the event (capture_1, X) with flag 0 and with flag 1. -/
theorem C15_flag_ignored_witness :
    on_port_connect sample_client main_init_pipe 1 4 0 =
      queue_element main_init_pipe 1 ∧
    on_port_connect sample_client main_init_pipe 1 4 1 =
      queue_element main_init_pipe 1 :=
  (C15_flag_ignored sample_client main_init_pipe 1 4 0 1).2
    "system:capture_1" "X" (by decide) (by decide) (by decide) (by decide)

/-- C16 (as amended): in the pipe that `main` sets up the write semaphore is
initialised by `init_semaphore(&id_pipe.write_semaphore, 1)` to 1, the read
semaphore to 0, and `buffer_watermark` is 0. -/
theorem C16_initial_pipe :
    main_init_pipe.write_semaphore = init_semaphore 1 ∧
    main_init_pipe.write_semaphore = 1 ∧
    main_init_pipe.read_semaphore = 0 ∧
    main_init_pipe.buffer_watermark = 0 :=
  ⟨rfl, rfl, rfl, rfl⟩

/-- C16 (as stated) fails: the write semaphore of the initial pipe is not
the capacity 256 of the buffer. -/
theorem C16_counterexample_write_semaphore :
    BUFFER_CELLS = 256 ∧ main_init_pipe.write_semaphore ≠ 256 :=
  ⟨rfl, by decide⟩

theorem read_semaphore_is_watermark_before_overrun (pipe : disconnect_pipe)
    (h : Reachable pipe) :
    (pipe.read_semaphore : Int) = pipe.buffer_watermark ∧
    0 ≤ pipe.buffer_watermark ∧
    ∀ pipe1 : disconnect_pipe, has_elements pipe = (true, pipe1) →
      1 ≤ pipe1.buffer_watermark ∧
      ∃ pipe2 : disconnect_pipe,
        unqueue_element pipe1 =
          .ok (pipe.buffer (pipe.buffer_watermark - 1), pipe2) ∧
        0 ≤ pipe2.buffer_watermark ∧
        (pipe2.read_semaphore : Int) = pipe2.buffer_watermark := by
  obtain ⟨h0, h1, hr, hw, hwl⟩ := reachable_inv h
  refine ⟨hr, h0, ?_⟩
  intro pipe1 he
  by_cases hz : pipe.read_semaphore = 0
  · simp [has_elements, sem_trywait, hz] at he
  · simp only [has_elements, sem_trywait, hz, if_false, Prod.mk.injEq,
      true_and] at he
    subst he
    have ha : 0 ≤ pipe.buffer_watermark - 1 := by omega
    have hb : pipe.buffer_watermark - 1 < 256 := by omega
    refine ⟨by simp; omega,
      { buffer := pipe.buffer
        buffer_watermark := pipe.buffer_watermark - 1
        read_semaphore := pipe.read_semaphore - 1
        write_semaphore := sem_post pipe.write_semaphore }, ?_, ?_, ?_⟩
    · simp [unqueue_element, BUFFER_CELLS, sem_post, ha, hb]
    · simp; omega
    · simp; omega

theorem queue_element_write {pipe pipe1 : disconnect_pipe} {id : jack_port_id_t}
    (hle : pipe.write_semaphore ≤ SEM_VALUE_MAX)
    (h : queue_element pipe id = .ok pipe1) :
    pipe1.write_semaphore = pipe.write_semaphore := by
  unfold queue_element sem_wait at h
  by_cases hz : pipe.write_semaphore = 0
  · simp [hz] at h
  · by_cases hb : 0 ≤ pipe.buffer_watermark ∧ pipe.buffer_watermark < BUFFER_CELLS
    · simp only [hz, if_false, hb, and_self, if_true, Except.ok.injEq] at h
      subst h
      show sem_post (pipe.write_semaphore - 1) = pipe.write_semaphore
      rw [sem_post_lt _ (by omega)]
      omega
    · simp [hz, hb] at h

theorem tryDequeue_none {pipe pipe1 : disconnect_pipe}
    (h : tryDequeue pipe = .ok (none, pipe1)) : pipe1 = pipe := by
  unfold tryDequeue has_elements sem_trywait at h
  by_cases hz : pipe.read_semaphore = 0
  · simp [hz] at h
    exact h.symm
  · simp only [hz, if_false] at h
    split at h <;> simp at h

theorem tryDequeue_some_write {pipe pipe1 : disconnect_pipe} {v : jack_port_id_t}
    (h : tryDequeue pipe = .ok (some v, pipe1)) :
    pipe1.write_semaphore = sem_post pipe.write_semaphore := by
  unfold tryDequeue has_elements sem_trywait unqueue_element at h
  by_cases hz : pipe.read_semaphore = 0
  · simp [hz] at h
  · by_cases hb : 0 ≤ pipe.buffer_watermark - 1 ∧
        pipe.buffer_watermark - 1 < BUFFER_CELLS
    · simp only [hz, if_false, hb, and_self, if_true, Except.ok.injEq,
        Prod.mk.injEq] at h
      obtain ⟨_, rfl⟩ := h
      rfl
    · simp only [hz, if_false, hb] at h
      simp at h

theorem sem_post_min (w n : Nat) (hle : w ≤ SEM_VALUE_MAX) :
    min (sem_post w + n) SEM_VALUE_MAX = min (w + (n + 1)) SEM_VALUE_MAX := by
  unfold sem_post
  split <;> omega

theorem run_ops_write (ops : List pipe_op) :
    ∀ (pipe pipe1 : disconnect_pipe) (out : List jack_port_id_t),
      pipe.write_semaphore ≤ SEM_VALUE_MAX →
      run_ops pipe ops = .ok (pipe1, out) →
      pipe1.write_semaphore =
        min (pipe.write_semaphore + out.length) SEM_VALUE_MAX := by
  induction ops with
  | nil =>
    intro pipe pipe1 out hle h
    simp only [run_ops, Except.ok.injEq, Prod.mk.injEq] at h
    obtain ⟨rfl, rfl⟩ := h
    simp only [List.length_nil]
    omega
  | cons op ops ih =>
    intro pipe pipe1 out hle h
    cases op with
    | enqueue id =>
      simp only [run_ops] at h
      cases hq : queue_element pipe id with
      | error e => simp [hq] at h
      | ok p1 =>
        simp only [hq] at h
        have hw := queue_element_write hle hq
        rw [ih p1 pipe1 out (by omega) h, hw]
    | dequeue =>
      simp only [run_ops] at h
      cases hd : tryDequeue pipe with
      | error e => simp [hd] at h
      | ok r =>
        obtain ⟨v, p1⟩ := r
        cases v with
        | none =>
          simp only [hd] at h
          have he := tryDequeue_none hd
          subst he
          exact ih _ pipe1 out hle h
        | some v =>
          simp only [hd] at h
          cases hr : run_ops p1 ops with
          | error e => simp [hr] at h
          | ok r2 =>
            obtain ⟨p2, out2⟩ := r2
            simp only [hr, Except.ok.injEq, Prod.mk.injEq] at h
            obtain ⟨rfl, rfl⟩ := h
            have hw := tryDequeue_some_write hd
            rw [ih p1 p2 out2 (by rw [hw]; exact sem_post_le _ hle) hr, hw,
              List.length_cons]
            exact sem_post_min _ _ hle

theorem run_ops_error_append (a b : List pipe_op) :
    ∀ (pipe : disconnect_pipe) (e : Fault),
      run_ops pipe a = .error e → run_ops pipe (a ++ b) = .error e := by
  induction a with
  | nil => intro pipe e h; simp [run_ops] at h
  | cons op a ih =>
    intro pipe e h
    cases op with
    | enqueue id =>
      simp only [run_ops, List.cons_append] at h ⊢
      cases hq : queue_element pipe id with
      | error e1 => simpa [hq] using h
      | ok p1 =>
        simp only [hq] at h ⊢
        exact ih p1 e h
    | dequeue =>
      simp only [run_ops, List.cons_append] at h ⊢
      cases hd : tryDequeue pipe with
      | error e1 => simpa [hd] using h
      | ok r =>
        obtain ⟨v, p1⟩ := r
        cases v with
        | none =>
          simp only [hd] at h ⊢
          exact ih p1 e h
        | some v =>
          simp only [hd] at h ⊢
          cases hr : run_ops p1 a with
          | error e1 =>
            simp only [hr, Except.error.injEq] at h
            subst h
            rw [show a.append b = a ++ b from rfl, ih p1 e1 hr]
          | ok r2 => simp [hr] at h

theorem run_ops_append (a b : List pipe_op) :
    ∀ (pipe pipe1 : disconnect_pipe) (out1 : List jack_port_id_t),
      run_ops pipe a = .ok (pipe1, out1) →
      run_ops pipe (a ++ b) =
        match run_ops pipe1 b with
        | .error e => .error e
        | .ok (pipe2, out2) => .ok (pipe2, out1 ++ out2) := by
  induction a with
  | nil =>
    intro pipe pipe1 out1 h
    simp only [run_ops, Except.ok.injEq, Prod.mk.injEq] at h
    obtain ⟨rfl, rfl⟩ := h
    simp only [List.nil_append]
    cases run_ops pipe b with
    | error e => rfl
    | ok r => rfl
  | cons op a ih =>
    intro pipe pipe1 out1 h
    cases op with
    | enqueue id =>
      simp only [run_ops, List.cons_append] at h ⊢
      cases hq : queue_element pipe id with
      | error e => simp [hq] at h
      | ok p1 =>
        simp only [hq] at h ⊢
        exact ih p1 pipe1 out1 h
    | dequeue =>
      simp only [run_ops, List.cons_append] at h ⊢
      cases hd : tryDequeue pipe with
      | error e => simp [hd] at h
      | ok r =>
        obtain ⟨v, p1⟩ := r
        cases v with
        | none =>
          simp only [hd] at h ⊢
          exact ih p1 pipe1 out1 h
        | some v =>
          simp only [hd] at h ⊢
          cases hr : run_ops p1 a with
          | error e => simp [hr] at h
          | ok r2 =>
            obtain ⟨p2, out2⟩ := r2
            simp only [hr, Except.ok.injEq, Prod.mk.injEq] at h
            obtain ⟨rfl, rfl⟩ := h
            rw [show a.append b = a ++ b from rfl, ih p1 p2 out2 hr]
            cases run_ops p2 b with
            | error e => rfl
            | ok r3 => rfl

theorem reachable_run {pipe : disconnect_pipe} (h : Reachable pipe) :
    ∃ (ops : List pipe_op) (out : List jack_port_id_t),
      run_ops main_init_pipe ops = .ok (pipe, out) := by
  induction h with
  | init => exact ⟨[], [], rfl⟩
  | enqueue id _ hq ih =>
    obtain ⟨ops, out, hrun⟩ := ih
    refine ⟨ops ++ [pipe_op.enqueue id], out ++ [], ?_⟩
    rw [run_ops_append ops _ _ _ _ hrun]
    simp [run_ops, hq]
  | dequeue v _ hd ih =>
    obtain ⟨ops, out, hrun⟩ := ih
    cases v with
    | none =>
      refine ⟨ops ++ [pipe_op.dequeue], out ++ [], ?_⟩
      rw [run_ops_append ops _ _ _ _ hrun]
      simp [run_ops, hd]
    | some v =>
      refine ⟨ops ++ [pipe_op.dequeue], out ++ [v], ?_⟩
      rw [run_ops_append ops _ _ _ _ hrun]
      simp [run_ops, hd]

/-- C17 (evaluation at the failing input): the invariant holds up to the
full pipe and has no support after it.  256 enqueues reach a pipe with read
count 256 and watermark 256; the next `queue_element` is not stopped and
stores to `buffer[256]`, outside the buffer, on its way to posting the read
semaphore to 257; so the run of 257 enqueues and one dequeue leaves the
model at that store.  And `unqueue_element` has no test of its own: called
with watermark 0 it reads `buffer[-1]`. -/
theorem C17_overrun_at_full_pipe :
    (∃ pipe : disconnect_pipe, Reachable pipe ∧
      pipe.read_semaphore = 256 ∧ pipe.buffer_watermark = 256 ∧
      sem_post pipe.read_semaphore = 257 ∧
      queue_element pipe 0 = .error (.out_of_bounds 256)) ∧
    run_ops main_init_pipe
        (List.replicate 257 (pipe_op.enqueue 0) ++ [pipe_op.dequeue]) =
      .error (.out_of_bounds 256) ∧
    unqueue_element main_init_pipe = .error (.out_of_bounds (-1)) := by
  refine ⟨?_, ?_, ?_⟩
  · obtain ⟨pipe, hr, hw, hs⟩ := reachable_fill 0 256 (le_refl _)
    have hi := reachable_inv hr
    have hw2 : pipe.buffer_watermark = 256 := by simpa using hw
    have hrd : pipe.read_semaphore = 256 := by
      have := hi.read_eq
      omega
    refine ⟨pipe, hr, hrd, hw2, ?_, ?_⟩
    · rw [hrd]
      decide
    · simp [queue_element, sem_wait, BUFFER_CELLS, hs, hw2]
  · have h257 := run_ops_overflow 0 256 main_init_pipe pipe_inv_init (by decide)
    exact run_ops_error_append _ _ _ _ h257
  · simp [unqueue_element, main_init_pipe, BUFFER_CELLS]

theorem run_ops_rounds (n : Nat) :
    ∀ w : Nat, 1 ≤ w → w ≤ SEM_VALUE_MAX →
      run_ops { buffer := fun _ => 0, buffer_watermark := 0,
                read_semaphore := 0, write_semaphore := w }
          (List.replicate n [pipe_op.enqueue 0, pipe_op.dequeue]).flatten =
        .ok ({ buffer := fun _ => 0, buffer_watermark := 0,
               read_semaphore := 0,
               write_semaphore := min (w + n) SEM_VALUE_MAX },
             List.replicate n 0) := by
  induction n with
  | zero =>
    intro w _ hle
    have hm : min (w + 0) SEM_VALUE_MAX = w := by omega
    simp only [List.replicate_zero, List.flatten_nil, run_ops, hm]
  | succ n ih =>
    intro w hw hle
    have hr := reachable_empty_with_write w hw hle
    have hq := queue_element_ok
      { buffer := fun _ => 0, buffer_watermark := 0, read_semaphore := 0,
        write_semaphore := w } 0 (reachable_inv hr) (show (0 : Int) < 256 by decide)
    have hd := tryDequeue_item
      { buffer := Function.update (fun _ : Int => (0 : jack_port_id_t)) 0 0
        buffer_watermark := 0 + 1
        read_semaphore := 0 + 1
        write_semaphore := w }
      (show 1 ≤ 0 + 1 by omega) (show (1 : Int) ≤ 0 + 1 by omega)
      (show (0 : Int) + 1 ≤ 256 by omega)
    simp only [update_zero_zero, Int.zero_add, Nat.zero_add, Int.sub_self,
      Nat.sub_self] at hq hd
    have hrest := ih (sem_post w) (sem_post_pos w hw) (sem_post_le w hle)
    rw [sem_post_min w n hle] at hrest
    rw [List.replicate_succ, List.flatten_cons]
    show run_ops _ (pipe_op.enqueue 0 :: pipe_op.dequeue ::
      (List.replicate n [pipe_op.enqueue 0, pipe_op.dequeue]).flatten) = _
    simp only [run_ops, hq, hd, hrest, List.replicate_succ]

/-- C18 (as amended): every pipe state reached before any store outside the
buffer is the end of a run of operations from the initial pipe; for every
such run the count of the write semaphore is 1 plus the number of values the
run dequeued (one `unqueue_element` call each), capped at `SEM_VALUE_MAX`;
so the count is at least 1 and `queue_element` is never blocked in its
`sem_wait`, whatever the pipe holds. -/
theorem C18_write_semaphore_counts_dequeues (pipe : disconnect_pipe)
    (h : Reachable pipe) :
    (∃ (ops : List pipe_op) (out : List jack_port_id_t),
      run_ops main_init_pipe ops = .ok (pipe, out)) ∧
    (∀ (ops : List pipe_op) (out : List jack_port_id_t),
      run_ops main_init_pipe ops = .ok (pipe, out) →
      pipe.write_semaphore = min (1 + out.length) SEM_VALUE_MAX) ∧
    1 ≤ pipe.write_semaphore ∧
    ∀ id : jack_port_id_t, queue_element pipe id ≠ .error .blocked := by
  have hw := (reachable_inv h).write_pos
  refine ⟨reachable_run h, ?_, hw, ?_⟩
  · intro ops out hrun
    exact run_ops_write ops main_init_pipe pipe out (by decide) hrun
  · intro id
    have hne : pipe.write_semaphore ≠ 0 := by omega
    unfold queue_element sem_wait
    simp only [hne, if_false]
    split <;> simp

/-- Witness for C18 (as amended): the pipe holding the single id 1 has
write count 1. -/
theorem C18_write_semaphore_counts_dequeues_witness :
    Reachable one_item_pipe ∧
    (∃ (ops : List pipe_op) (out : List jack_port_id_t),
      run_ops main_init_pipe ops = .ok (one_item_pipe, out)) ∧
    1 ≤ one_item_pipe.write_semaphore :=
  ⟨Reachable.enqueue 1 Reachable.init rfl,
   (C18_write_semaphore_counts_dequeues one_item_pipe
      (Reachable.enqueue 1 Reachable.init rfl)).1,
   (C18_write_semaphore_counts_dequeues one_item_pipe
      (Reachable.enqueue 1 Reachable.init rfl)).2.2.1⟩

/-- C18 (as stated) fails: the run of 2^31 - 1 rounds of one enqueue and one
dequeue from the initial pipe returns, has completed 2147483647 calls of
`unqueue_element`, and ends with the write semaphore at `SEM_VALUE_MAX`,
which is 2147483647 and not 1 + 2147483647: the last `sem_post` failed and
left the count. -/
theorem C18_counterexample_write_semaphore_saturated :
    run_ops main_init_pipe
        (List.replicate 2147483647 [pipe_op.enqueue 0, pipe_op.dequeue]).flatten =
      .ok ({ buffer := fun _ => 0, buffer_watermark := 0, read_semaphore := 0,
             write_semaphore := 2147483647 },
           List.replicate 2147483647 0) ∧
    (List.replicate 2147483647 (0 : jack_port_id_t)).length = 2147483647 ∧
    (2147483647 : Nat) ≠ 1 + (List.replicate 2147483647 (0 : jack_port_id_t)).length :=
  ⟨run_ops_rounds 2147483647 1 (by decide) (by decide),
   List.length_replicate _ _,
   by rw [List.length_replicate]; decide⟩

/-! ## Last in, first out -/

theorem run_ops_lifo (ops : List pipe_op) :
    ∀ (pipe : disconnect_pipe) (held : Nat), pipe_inv pipe →
      pipe.buffer_watermark = held →
      holds_at_most 256 held ops = true →
      ∃ (pipe1 : disconnect_pipe) (out : List jack_port_id_t),
        run_ops pipe ops = .ok (pipe1, out) ∧ pipe_inv pipe1 ∧
        out = (lifo_reference (stored pipe).reverse ops).1 ∧
        (stored pipe1).reverse = (lifo_reference (stored pipe).reverse ops).2 := by
  induction ops with
  | nil =>
    intro pipe held hi _ _
    exact ⟨pipe, [], rfl, hi, rfl, rfl⟩
  | cons op ops ih =>
    intro pipe held hi hh hfit
    cases op with
    | enqueue id =>
      simp only [holds_at_most, Bool.and_eq_true, decide_eq_true_eq] at hfit
      have hlt : pipe.buffer_watermark < 256 := by omega
      have hq := queue_element_ok pipe id hi hlt
      obtain ⟨pipe1, out, hrun, hi1, ho, hst⟩ :=
        ih _ (held + 1) (pipe_inv_queue hi hq) (by simp [hh]) hfit.2
      rw [stored_push pipe id hi.nonneg, List.reverse_append,
        List.reverse_singleton, List.singleton_append] at ho hst
      exact ⟨pipe1, out, by simp [run_ops, hq, hrun], hi1, ho, hst⟩
    | dequeue =>
      simp only [holds_at_most] at hfit
      by_cases hz : pipe.read_semaphore = 0
      · have hd := tryDequeue_empty pipe hz
        have hheld : held = 0 := by have := hi.read_eq; omega
        have hs : stored pipe = [] := by simp [stored, hh, hheld]
        obtain ⟨pipe1, out, hrun, hi1, ho, hst⟩ :=
          ih pipe held hi hh (by simpa [hheld] using hfit)
        rw [hs] at ho hst ⊢
        exact ⟨pipe1, out, by simp [run_ops, hd, hrun], hi1, ho, hst⟩
      · have hr := hi.read_eq
        have hb := hi.bounded
        have hd := tryDequeue_item pipe (by omega) (by omega) hb
        obtain ⟨pipe1, out, hrun, hi1, ho, hst⟩ :=
          ih _ (held - 1) (pipe_inv_dequeue hi hd) (by simp; omega) hfit
        refine ⟨pipe1, pipe.buffer (pipe.buffer_watermark - 1) :: out,
          by simp [run_ops, hd, hrun], hi1, ?_, ?_⟩
        · rw [stored_pop pipe (by omega), List.reverse_append,
            List.reverse_singleton, List.singleton_append]
          simp only [lifo_reference]
          rw [ho]
        · rw [stored_pop pipe (by omega), List.reverse_append,
            List.reverse_singleton, List.singleton_append]
          simp only [lifo_reference]
          exact hst

theorem holds_at_most_dequeues (cap : Nat) (n : Nat) :
    ∀ held : Nat, holds_at_most cap held (List.replicate n pipe_op.dequeue) = true := by
  induction n with
  | zero => intro held; rfl
  | succ n ih => intro held; simp only [List.replicate_succ, holds_at_most, ih]

theorem holds_at_most_enqueues (cap : Nat) (xs : List jack_port_id_t)
    (rest : List pipe_op) :
    ∀ held : Nat, held + xs.length ≤ cap →
      holds_at_most cap (held + xs.length) rest = true →
      holds_at_most cap held (xs.map pipe_op.enqueue ++ rest) = true := by
  induction xs with
  | nil => intro held _ h; simpa using h
  | cons x xs ih =>
    intro held hc h
    simp only [List.length_cons] at hc h
    simp only [List.map_cons, List.cons_append, holds_at_most, Bool.and_eq_true,
      decide_eq_true_eq]
    refine ⟨by omega, ih (held + 1) (by omega) ?_⟩
    rw [show held + 1 + xs.length = held + (xs.length + 1) by omega]
    exact h

theorem lifo_reference_enqueues (xs : List jack_port_id_t) (rest : List pipe_op) :
    ∀ stack : List jack_port_id_t,
      lifo_reference stack (xs.map pipe_op.enqueue ++ rest) =
        lifo_reference (xs.reverse ++ stack) rest := by
  induction xs with
  | nil => intro stack; rfl
  | cons x xs ih =>
    intro stack
    simp only [List.map_cons, List.cons_append, lifo_reference,
      List.reverse_cons, List.append_assoc, List.singleton_append,
      List.nil_append]
    exact ih (x :: stack)

theorem lifo_reference_dequeues (stack : List jack_port_id_t) :
    ∀ n : Nat, stack.length ≤ n →
      lifo_reference stack (List.replicate n pipe_op.dequeue) = (stack, []) := by
  induction stack with
  | nil =>
    intro n _
    induction n with
    | zero => rfl
    | succ n ih =>
      simp only [List.replicate_succ, lifo_reference]
      exact ih (Nat.zero_le _)
  | cons top stack ih =>
    intro n hn
    obtain ⟨m, rfl⟩ : ∃ m, n = m + 1 := ⟨n - 1, by simp at hn; omega⟩
    simp only [List.replicate_succ, lifo_reference,
      ih m (by simp at hn; omega)]

/-- C14: on every reachable empty pipe (the initial pipe among them),
enqueueing a list `xs` of at most 256 ids in order and then calling
`tryDequeue` until it returns nothing (and `k` more times) returns exactly
the reverse of `xs` and leaves the pipe empty.  More generally every run
that never holds more than 256 ids returns what the stack `lifo_reference`
returns, each dequeue taking the most recently enqueued id not yet
dequeued, and the buffer below the watermark is that stack, bottom first. -/
theorem C14_last_in_first_out (pipe0 : disconnect_pipe) (h : Reachable pipe0)
    (hz : pipe0.buffer_watermark = 0) (xs : List jack_port_id_t)
    (hlen : xs.length ≤ 256) (k : Nat) :
    (∃ pipe : disconnect_pipe,
      run_ops pipe0 (xs.map pipe_op.enqueue ++
          List.replicate (xs.length + k) pipe_op.dequeue) = .ok (pipe, xs.reverse) ∧
      pipe.buffer_watermark = 0 ∧ pipe.read_semaphore = 0) ∧
    (∀ ops : List pipe_op, holds_at_most 256 0 ops = true →
      ∃ (pipe : disconnect_pipe) (out : List jack_port_id_t),
        run_ops pipe0 ops = .ok (pipe, out) ∧
        out = (lifo_reference [] ops).1 ∧
        (stored pipe).reverse = (lifo_reference [] ops).2) := by
  have hi := reachable_inv h
  have hs : stored pipe0 = [] := by simp [stored, hz]
  have gen : ∀ ops : List pipe_op, holds_at_most 256 0 ops = true →
      ∃ (pipe : disconnect_pipe) (out : List jack_port_id_t),
        run_ops pipe0 ops = .ok (pipe, out) ∧ pipe_inv pipe ∧
        out = (lifo_reference [] ops).1 ∧
        (stored pipe).reverse = (lifo_reference [] ops).2 := by
    intro ops hfit
    obtain ⟨pipe, out, hrun, hi1, ho, hst⟩ :=
      run_ops_lifo ops pipe0 0 hi (by simpa using hz) hfit
    rw [hs] at ho hst
    exact ⟨pipe, out, hrun, hi1, ho, hst⟩
  constructor
  · have hfit : holds_at_most 256 0 (xs.map pipe_op.enqueue ++
        List.replicate (xs.length + k) pipe_op.dequeue) = true :=
      holds_at_most_enqueues 256 xs _ 0 (by omega) (holds_at_most_dequeues _ _ _)
    obtain ⟨pipe, out, hrun, hi1, ho, hst⟩ := gen _ hfit
    rw [lifo_reference_enqueues, List.append_nil,
      lifo_reference_dequeues _ _ (by simp)] at ho hst
    simp only at ho hst
    subst ho
    have hw0 : pipe.buffer_watermark = 0 := by
      have hl := congrArg List.length hst
      simp [stored] at hl
      have := hi1.nonneg
      omega
    refine ⟨pipe, hrun, hw0, ?_⟩
    have := hi1.read_eq
    omega
  · intro ops hfit
    obtain ⟨pipe, out, hrun, _, ho, hst⟩ := gen ops hfit
    exact ⟨pipe, out, hrun, ho, hst⟩

/-- Witness for C14: the ids 5, 6, 7 enqueued onto the initial pipe come
back as 7, 6, 5. -/
theorem C14_last_in_first_out_witness :
    ∃ pipe : disconnect_pipe,
      run_ops main_init_pipe ([5, 6, 7].map pipe_op.enqueue ++
          List.replicate ([5, 6, 7].length + 1) pipe_op.dequeue) =
        .ok (pipe, [5, 6, 7].reverse) ∧
      pipe.buffer_watermark = 0 ∧ pipe.read_semaphore = 0 :=
  (C14_last_in_first_out main_init_pipe Reachable.init rfl [5, 6, 7]
    (by decide) 1).1

/-! ## The policy passes the filter -/

/-- C19: every call of `try_reconnect_mic` is a connect from an entry of
`mic_ports` to an entry of `acceptable_mic_connections`; the destinations of
the calls, in order, are exactly the entries of
`acceptable_mic_connections`, which are pairwise different, so every entry
is the destination of exactly one call; and for a connection (a, b) that the
policy makes, `on_port_connect` on the notification for it returns the pipe
unchanged, on every graph in which the two ids have these names and on every
pipe. -/
theorem C19_policy_is_compliant (client : jack_client_t)
    (pipe : disconnect_pipe) (id_a id_b : jack_port_id_t) (is_connected : Int)
    (a b : String)
    (hc : jack_call.connect a b ∈ try_reconnect_mic)
    (ha : jack_port_name (jack_port_by_id client id_a) = some a)
    (hb : jack_port_name (jack_port_by_id client id_b) = some b) :
    (∀ c ∈ try_reconnect_mic, ∃ x y, c = jack_call.connect x y ∧
      x ∈ mic_ports ∧ y ∈ acceptable_mic_connections) ∧
    try_reconnect_mic.filterMap (fun c =>
        match c with
        | jack_call.connect _ y => some y
        | jack_call.port_disconnect _ => none) = acceptable_mic_connections ∧
    acceptable_mic_connections.Nodup ∧
    (∀ y ∈ acceptable_mic_connections,
      try_reconnect_mic.countP (fun c =>
        match c with
        | jack_call.connect _ d => decide (d = y)
        | jack_call.port_disconnect _ => false) = 1) ∧
    a ∈ mic_ports ∧ b ∈ acceptable_mic_connections ∧
    on_port_connect client pipe id_a id_b is_connected = .ok pipe := by
  have hall : ∀ c ∈ try_reconnect_mic, ∃ x y, c = jack_call.connect x y ∧
      x ∈ mic_ports ∧ y ∈ acceptable_mic_connections := by
    rw [try_reconnect_mic_calls]
    intro c hcm
    simp only [List.mem_cons, List.mem_singleton, List.not_mem_nil, or_false] at hcm
    rcases hcm with rfl | rfl | rfl | rfl <;>
      exact ⟨_, _, rfl, by decide, by decide⟩
  obtain ⟨x, y, hxy, hx, hy⟩ := hall _ hc
  simp only [jack_call.connect.injEq] at hxy
  obtain ⟨rfl, rfl⟩ := hxy
  refine ⟨hall, ?_, by decide, ?_, hx, hy, ?_⟩
  · rw [try_reconnect_mic_calls]
    rfl
  · rw [try_reconnect_mic_calls]
    decide
  · simp [on_port_connect, ha, hb, is_mic_loop_some,
      should_disconnect_loop_some, hx, hy]

/-- Witness for C19: the notification for the connection from capture_1 to
the first approved destination. -/
theorem C19_policy_is_compliant_witness :
    jack_call.connect "system:capture_1" "ardour:Mic/audio_in 1"
      ∈ try_reconnect_mic ∧
    on_port_connect sample_client main_init_pipe 1 3 1 = .ok main_init_pipe := by
  have hc : jack_call.connect "system:capture_1" "ardour:Mic/audio_in 1"
      ∈ try_reconnect_mic := by
    rw [try_reconnect_mic_calls]
    decide
  exact ⟨hc, (C19_policy_is_compliant sample_client main_init_pipe 1 3 1
    "system:capture_1" "ardour:Mic/audio_in 1" hc (by decide) (by decide)).2.2.2.2.2.2⟩

end JackUtils
